import Mathlib

/-!
Verification of the CloudAPI test-double HTTP layer
(`localservices/cloudapi/service_http.go` of the gosdc repository).

The Go code is shallowly embedded: Go (byte) strings are `List Char`
(written `GoStr`; all inputs of interest are ASCII, where byte indexing and
char indexing coincide), the string primitives used by the source
(`strings.HasSuffix`, `strings.HasPrefix`, `strings.TrimPrefix`,
`strings.TrimSuffix`, `strings.Split`, `strings.Index`, `strings.Replace`)
are given as executable recursions, Go `error` values become an explicit
sum, JSON marshalling of the values the code actually marshals becomes a
`Json` inductive with an executable renderer, and each handler becomes a
function from a request and a store oracle to the store calls it performs
plus its outcome (a written response, a returned error, or a runtime
panic).
-/

/-- Go strings, as lists of characters. -/
abbrev GoStr := List Char

/-- Coerce a Lean string literal to a `GoStr`. -/
def gs (s : String) : GoStr := s.data

/-- `strings.HasPrefix` (Go): `p` is a prefix of `s`. -/
def hasPrefixL : GoStr → GoStr → Bool
  | _, [] => true
  | [], _ :: _ => false
  | c :: s, d :: p => c = d && hasPrefixL s p

/-- `strings.HasSuffix` (Go): `p` is a suffix of `s`. -/
def hasSuffixL (s p : GoStr) : Bool := hasPrefixL s.reverse p.reverse

/-- `strings.TrimPrefix` (Go): drop `p` from the front of `s` when present,
else return `s` unchanged. -/
def trimPrefixL (s p : GoStr) : GoStr :=
  if hasPrefixL s p then s.drop p.length else s

/-- `strings.TrimSuffix` (Go): drop `p` from the end of `s` when present,
else return `s` unchanged. -/
def trimSuffixL (s p : GoStr) : GoStr :=
  if hasSuffixL s p then s.take (s.length - p.length) else s

/-- `strings.Split(s, sep)` for a single-character separator: Go returns
the segments between occurrences of the separator (`[""]` on empty input,
matching `strings.Split("", sep)`). -/
def splitOnCh (sep : Char) : GoStr → List GoStr
  | [] => [[]]
  | c :: rest =>
    let tail := splitOnCh sep rest
    if c = sep then [] :: tail
    else match tail with
      | [] => [[c]]
      | seg :: more => (c :: seg) :: more

/-- `strings.Index(s, sub)` for a single-character needle: the position of
the first occurrence, `none` standing for Go's `-1`. -/
def charIdx (ch : Char) : GoStr → Option Nat
  | [] => none
  | c :: rest =>
    if c = ch then some 0
    else (charIdx ch rest).map (· + 1)

/-- `strings.Replace(s, old, new, 1)` for a non-empty pattern: replace the
first occurrence of `old` with `new`. -/
def replaceOnceL (s pat new : GoStr) : GoStr :=
  match s with
  | [] => []
  | c :: rest =>
    if hasPrefixL (c :: rest) pat then new ++ (c :: rest).drop pat.length
    else c :: replaceOnceL rest pat new

/-- Go map assignment `m[k] = v` on an association-list model of
`map[string]string`: overwrite an existing binding in place, otherwise
append the new binding. -/
def mapInsert (m : List (GoStr × GoStr)) (k v : GoStr) : List (GoStr × GoStr) :=
  match m with
  | [] => [(k, v)]
  | (k0, v0) :: rest =>
    if k0 = k then (k0, v) :: rest else (k0, v0) :: mapInsert rest k v

/-- Decimal rendering of a natural number (digit list). -/
def renderNat (n : Nat) : GoStr := (Nat.toDigits 10 n)

/-- JSON values, covering everything the source marshals and every shape
`json.Unmarshal` can produce for `map[string]interface{}`. -/
inductive Json where
  | null : Json
  | bool (b : Bool) : Json
  | num (n : Int) : Json
  | str (s : GoStr) : Json
  | arr (xs : List Json) : Json
  | obj (fields : List (GoStr × Json)) : Json

instance : Inhabited Json := ⟨Json.null⟩

/-- The `v == nil` test of the Go extraction loop: an interface value
decoded from JSON is nil exactly when the JSON value was `null`. -/
def Json.isNull : Json → Bool
  | .null => true
  | _ => false

mutual

/-- `encoding/json` rendering of a `Json` value (string escaping restricted
to quote and backslash, the only characters the claims exercise). -/
def Json.render : Json → GoStr
  | .null => gs "null"
  | .bool true => gs "true"
  | .bool false => gs "false"
  | .num n =>
    if n < 0 then '-' :: renderNat n.natAbs else renderNat n.natAbs
  | .str s => '"' :: escapeStr s ++ ['"']
  | .arr xs => '[' :: renderArr xs ++ [']']
  | .obj fs => '\x7b' :: renderObj fs ++ ['\x7d']

/-- Escape quote and backslash inside a JSON string body. -/
def Json.escapeStr : GoStr → GoStr
  | [] => []
  | c :: rest =>
    if c = '"' || c = '\\' then '\\' :: c :: escapeStr rest
    else c :: escapeStr rest

/-- Comma-joined rendering of array elements. -/
def Json.renderArr : List Json → GoStr
  | [] => []
  | [x] => x.render
  | x :: y :: rest => x.render ++ ',' :: renderArr (y :: rest)

/-- Comma-joined rendering of object fields. -/
def Json.renderObj : List (GoStr × Json) → GoStr
  | [] => []
  | [(k, v)] => '"' :: escapeStr k ++ '"' :: ':' :: v.render
  | (k, v) :: f :: rest =>
    '"' :: escapeStr k ++ '"' :: ':' :: v.render ++ ',' :: renderObj (f :: rest)

end

/-- `ErrorResponse` (service_http.go:23): a renderable HTTP failure.
The Go struct's final `cloudapi *CloudAPI` field is plumbing never read by
the rendering code and is omitted. `headers == nil` is modelled as `[]`. -/
structure ErrorResponse where
  Code : Nat
  Body : GoStr
  contentType : GoStr
  errorText : GoStr
  headers : List (GoStr × GoStr)
deriving DecidableEq, Repr

/-- `ErrNotAllowed` (service_http.go:34). -/
def ErrNotAllowed : ErrorResponse :=
  ⟨405, gs "Method is not allowed", gs "text/plain; charset=UTF-8",
   gs "MethodNotAllowedError", []⟩

/-- `ErrNotFound` (service_http.go:44). -/
def ErrNotFound : ErrorResponse :=
  ⟨404, gs "Resource Not Found", gs "text/plain; charset=UTF-8",
   gs "NotFoundError", []⟩

/-- `ErrBadRequest` (service_http.go:54). -/
def ErrBadRequest : ErrorResponse :=
  ⟨400, gs "Malformed request url", gs "text/plain; charset=UTF-8",
   gs "BadRequestError", []⟩

/-- A Go `error` value as the handlers produce them: either a
`*ErrorResponse` (which implements `http.Handler`) or a generic error that
only carries its `Error()` text (store failures, decode failures,
`fmt.Errorf`). -/
inductive GoError where
  | resp (e : ErrorResponse) : GoError
  | generic (msg : GoStr) : GoError
deriving DecidableEq, Repr

/-- `Error()` on the modelled error (service_http.go:64 for the
`ErrorResponse` case). -/
def GoError.text : GoError → GoStr
  | .resp e => e.errorText
  | .generic m => m

/-- The bytes a `ResponseWriter` saw: status, headers in write order,
body. -/
structure Written where
  status : Nat
  headers : List (GoStr × GoStr)
  body : GoStr
deriving DecidableEq, Repr

/-- `ErrorResponse.ServeHTTP` (service_http.go:68): content type when
non-empty, extra headers, `Content-Length`, then status and body. A zero
status code would leave Go to default to 200. -/
def ErrorResponse.render (e : ErrorResponse) : Written :=
  { status := if e.Code ≠ 0 then e.Code else 200
    headers :=
      (if e.contentType ≠ [] then [(gs "Content-Type", e.contentType)] else [])
        ++ e.headers ++ [(gs "Content-Length", renderNat e.Body.length)]
    body := e.Body }

/-! ## Resource values

The wire structs (`cloudapi.Key`, `cloudapi.Image`, ...) live in the
client-library package of the repository, which is not under `src/`; only
their zero values and JSON-object rendering matter to this layer. -/

/-- Modelled from the spec: a key resource; the spec's create-key body
carries `name` and `key` (§6). A Go struct value always marshals to a JSON
object. -/
structure Key where
  name : GoStr := []
  key : GoStr := []
deriving DecidableEq, Repr

/-- JSON rendering of a key resource. -/
def Key.toJson (k : Key) : Json :=
  .obj [(gs "name", .str k.name), (gs "key", .str k.key)]

/-- Modelled from the spec: an image resource; its field set is not under
`src/`, and only its rendering as a JSON object is relevant here. -/
structure Image where
  id : GoStr := []
deriving DecidableEq, Repr

/-- JSON rendering of an image resource. -/
def Image.toJson (i : Image) : Json := .obj [(gs "id", .str i.id)]

/-- Modelled from the spec: a package resource (field set not under
`src/`). -/
structure Package where
  name : GoStr := []
deriving DecidableEq, Repr

/-- JSON rendering of a package resource. -/
def Package.toJson (p : Package) : Json := .obj [(gs "name", .str p.name)]

/-- Modelled from the spec: a machine resource; the spec's create-machine
call carries name/package/image/networks/metadata/tags (§4.2, §6). -/
structure Machine where
  name : GoStr := []
  package : GoStr := []
  image : GoStr := []
deriving DecidableEq, Repr

/-- JSON rendering of a machine resource. -/
def Machine.toJson (m : Machine) : Json :=
  .obj [(gs "name", .str m.name), (gs "package", .str m.package),
        (gs "image", .str m.image)]

/-- Modelled from the spec: a firewall-rule resource; its create body
carries `rule` and `enabled` (service_http.go:550). -/
structure FirewallRule where
  rule : GoStr := []
  enabled : Bool := false
deriving DecidableEq, Repr

/-- JSON rendering of a firewall-rule resource. -/
def FirewallRule.toJson (f : FirewallRule) : Json :=
  .obj [(gs "rule", .str f.rule), (gs "enabled", .bool f.enabled)]

/-- Modelled from the spec: a network resource (field set not under
`src/`). -/
structure Network where
  id : GoStr := []
deriving DecidableEq, Repr

/-- JSON rendering of a network resource. -/
def Network.toJson (n : Network) : Json := .obj [(gs "id", .str n.id)]

/-! ## Query handling -/

/-- The `map[string]string` filter set, as an insertion-ordered association
list with Go map overwrite semantics. -/
abbrev Filters := List (GoStr × GoStr)

/-- One pass of the `processFilter` loop body over the split segments:
`.error ()` marks the panic of `filter[:strings.Index(filter, "=")]` when a
segment contains no `=` (the index is Go's `-1`). -/
def procSegs : List GoStr → Filters → Except Unit Filters
  | [], acc => .ok acc
  | seg :: rest, acc =>
    match charIdx '=' seg with
    | none => .error ()
    | some i => procSegs rest (mapInsert acc (seg.take i) (seg.drop (i + 1)))

/-- `processFilter` (service_http.go:136): `none` is the nil map returned
for an absent query string; `.error ()` is the slice-bounds panic. -/
def processFilter (rawQuery : GoStr) : Except Unit (Option Filters) :=
  if rawQuery = [] then .ok none
  else (procSegs (splitOnCh '&' rawQuery) []).map some

/-- `r.URL.Query().Get(key)` (net/url): split the raw query on `&`, take
each segment's part before the first `=` as the key and the rest as the
value (a segment without `=` has value `""`), and return the first value
bound to `key`, or `""` when absent. Percent-decoding is not modelled; the
queries the double is exercised with contain no escapes. -/
def queryGet (rawQuery key : GoStr) : GoStr :=
  go (splitOnCh '&' rawQuery)
where
  go : List GoStr → GoStr
    | [] => []
    | seg :: rest =>
      let k := match charIdx '=' seg with
        | none => seg
        | some i => seg.take i
      let v := match charIdx '=' seg with
        | none => []
        | some i => seg.drop (i + 1)
      if seg ≠ [] ∧ k = key then v else go rest

/-! ## The store oracle

The in-memory store (`CloudAPI` methods such as `ListKeys`, `CreateMachine`)
is an external collaborator of this layer; each operation is an oracle
field giving the value/error the store returns. `Option` on a result is
Go's nil pointer / nil slice. -/

/-- Store operations, with the arguments the handlers pass. Used to record
which calls a handler performed. -/
inductive StoreCall where
  | listKeys
  | getKey (name : GoStr)
  | createKey (name key : GoStr)
  | deleteKey (name : GoStr)
  | listImages (filters : Option Filters)
  | getImage (id : GoStr)
  | listPackages (filters : Option Filters)
  | getPackage (name : GoStr)
  | listMachines (filters : Option Filters)
  | countMachines
  | getMachine (id : GoStr)
  | listMachineFirewallRules (machineId : GoStr)
  | createMachine (name pkg image : GoStr) (networks : Option (List GoStr))
      (metadata tags : Filters)
  | stopMachine (id : GoStr)
  | startMachine (id : GoStr)
  | rebootMachine (id : GoStr)
  | resizeMachine (id pkg : GoStr)
  | renameMachine (id name : GoStr)
  | enableFirewallMachine (id : GoStr)
  | disableFirewallMachine (id : GoStr)
  | deleteMachine (id : GoStr)
  | listFirewallRules
  | getFirewallRule (id : GoStr)
  | createFirewallRule (rule : GoStr) (enabled : Bool)
  | updateFirewallRule (id rule : GoStr) (enabled : Bool)
  | enableFirewallRule (id : GoStr)
  | disableFirewallRule (id : GoStr)
  | deleteFirewallRule (id : GoStr)
  | listNetworks
  | getNetwork (id : GoStr)
deriving DecidableEq, Repr

/-- The store oracle: what each operation would return. -/
structure Store where
  listKeys : Except GoError (Option (List Key)) := .ok none
  getKey : GoStr → Except GoError (Option Key) := fun _ => .ok none
  createKey : GoStr → GoStr → Except GoError (Option Key) := fun _ _ => .ok none
  deleteKey : GoStr → Option GoError := fun _ => none
  listImages : Option Filters → Except GoError (Option (List Image)) := fun _ => .ok none
  getImage : GoStr → Except GoError (Option Image) := fun _ => .ok none
  listPackages : Option Filters → Except GoError (Option (List Package)) := fun _ => .ok none
  getPackage : GoStr → Except GoError (Option Package) := fun _ => .ok none
  listMachines : Option Filters → Except GoError (Option (List Machine)) := fun _ => .ok none
  countMachines : Except GoError Nat := .ok 0
  getMachine : GoStr → Except GoError (Option Machine) := fun _ => .ok none
  listMachineFirewallRules : GoStr → Except GoError (Option (List FirewallRule)) := fun _ => .ok none
  createMachine : GoStr → GoStr → GoStr → Option (List GoStr) → Filters → Filters →
    Except GoError (Option Machine) := fun _ _ _ _ _ _ => .ok none
  stopMachine : GoStr → Option GoError := fun _ => none
  startMachine : GoStr → Option GoError := fun _ => none
  rebootMachine : GoStr → Option GoError := fun _ => none
  resizeMachine : GoStr → GoStr → Option GoError := fun _ _ => none
  renameMachine : GoStr → GoStr → Option GoError := fun _ _ => none
  enableFirewallMachine : GoStr → Option GoError := fun _ => none
  disableFirewallMachine : GoStr → Option GoError := fun _ => none
  deleteMachine : GoStr → Option GoError := fun _ => none
  listFirewallRules : Except GoError (Option (List FirewallRule)) := .ok none
  getFirewallRule : GoStr → Except GoError (Option FirewallRule) := fun _ => .ok none
  createFirewallRule : GoStr → Bool → Except GoError (Option FirewallRule) := fun _ _ => .ok none
  updateFirewallRule : GoStr → GoStr → Bool → Except GoError (Option FirewallRule) := fun _ _ _ => .ok none
  enableFirewallRule : GoStr → Except GoError (Option FirewallRule) := fun _ => .ok none
  disableFirewallRule : GoStr → Except GoError (Option FirewallRule) := fun _ => .ok none
  deleteFirewallRule : GoStr → Option GoError := fun _ => none
  listNetworks : Except GoError (Option (List Network)) := .ok none
  getNetwork : GoStr → Except GoError (Option Network) := fun _ => .ok none

/-! ## Requests, handler outcomes -/

/-- The request body, after `ioutil.ReadAll` and (when attempted)
`json.Unmarshal`: a read error, an empty body, a body that is not valid
JSON, or a decoded JSON value. -/
inductive Body where
  | readErr (msg : GoStr)
  | empty
  | malformed (msg : GoStr)
  | json (j : Json)

/-- The parts of an `*http.Request` this layer reads. -/
structure Request where
  method : GoStr
  path : GoStr
  rawQuery : GoStr := []
  body : Body := .empty

/-- The account-scoping configuration (`c.ServiceInstance.UserAccount`). -/
structure Config where
  userAccount : GoStr

/-- A handler method's outcome: a response written through `sendJSON`
(status code and marshalled body), a returned Go error, or a runtime
panic. -/
inductive HResult where
  | ok (code : Nat) (body : GoStr)
  | err (e : GoError)
  | panics
deriving Repr

/-- A handler invocation: the store calls it performed, in order, and its
outcome. -/
structure HandlerOut where
  calls : List StoreCall
  res : HResult

/-- `sendJSON` (service_http.go:127): marshal and write. Marshalling of the
values this layer passes cannot fail. -/
def sendJSON (code : Nat) (resp : Json) : HResult := .ok code resp.render

/-! ## Option-struct decoding

`json.Unmarshal` into the typed option structs (`cloudapi.CreateKeyOpts`,
`cloudapi.CreateFwRuleOpts`, defined in the client-library package, not
under `src/`): a non-object document is a type error, unknown object keys
are ignored, a `null` leaves the field at its zero value, a wrong-typed
value is an unmarshalling error (the handler returns it before reading any
field, so the partially decoded struct is never observed). Field names are
matched exactly (the tagged lower-case names). -/

/-- Modelled from the spec: decoding `cloudapi.CreateKeyOpts`, whose
create-key body carries `name` and `key` (§6). -/
def decodeKeyOpts : Json → Except GoStr (GoStr × GoStr)
  | .obj fs => go fs ([], [])
  | _ => .error (gs "json: cannot unmarshal value into CreateKeyOpts")
where
  go : List (GoStr × Json) → GoStr × GoStr → Except GoStr (GoStr × GoStr)
    | [], acc => .ok acc
    | (k, v) :: rest, (n, ky) =>
      if k = gs "name" then
        match v with
        | .str s => go rest (s, ky)
        | .null => go rest (n, ky)
        | _ => .error (gs "json: cannot unmarshal value into field name")
      else if k = gs "key" then
        match v with
        | .str s => go rest (n, s)
        | .null => go rest (n, ky)
        | _ => .error (gs "json: cannot unmarshal value into field key")
      else go rest (n, ky)

/-- Modelled from the spec: decoding `cloudapi.CreateFwRuleOpts`, whose
body carries `rule` and `enabled` (service_http.go:550,563). -/
def decodeFwOpts : Json → Except GoStr (GoStr × Bool)
  | .obj fs => go fs ([], false)
  | _ => .error (gs "json: cannot unmarshal value into CreateFwRuleOpts")
where
  go : List (GoStr × Json) → GoStr × Bool → Except GoStr (GoStr × Bool)
    | [], acc => .ok acc
    | (k, v) :: rest, (ru, en) =>
      if k = gs "rule" then
        match v with
        | .str s => go rest (s, en)
        | .null => go rest (ru, en)
        | _ => .error (gs "json: cannot unmarshal value into field rule")
      else if k = gs "enabled" then
        match v with
        | .bool b => go rest (ru, b)
        | .null => go rest (ru, en)
        | _ => .error (gs "json: cannot unmarshal value into field enabled")
      else go rest (ru, en)

/-- Running an option-struct decode over a request body, as the POST
branches do: a read error or unmarshal error is returned as a generic
error, an empty body leaves the zero options. -/
def readOpts {α : Type} (b : Body) (dec : Json → Except GoStr α) (zero : α) :
    Except GoError α :=
  match b with
  | .readErr m => .error (.generic m)
  | .empty => .ok zero
  | .malformed m => .error (.generic m)
  | .json j =>
    match dec j with
    | .error m => .error (.generic m)
    | .ok a => .ok a

/-! ## Machine-create field extraction (service_http.go:386) -/

/-- The local variables of the CreateMachine branch. -/
structure MachineParams where
  name : GoStr := []
  pkg : GoStr := []
  image : GoStr := []
  networks : Option (List GoStr) := none
  metadata : Filters := []
  tags : Filters := []
deriving DecidableEq, Repr

/-- The inner `for _, n := range v.([]interface{})` loop: every element
must satisfy the `n.(string)` assertion, else the branch panics
(`none`). -/
def asStrings : List Json → Option (List GoStr)
  | [] => some []
  | .str s :: rest => (asStrings rest).map (s :: ·)
  | _ :: _ => none

/-- The `for k, v := range opts` extraction loop (service_http.go:407):
`none` marks a failed type assertion, i.e. a runtime panic. -/
def machineOptsLoop : List (GoStr × Json) → MachineParams → Option MachineParams
  | [], p => some p
  | (k, v) :: rest, p =>
    if v.isNull then machineOptsLoop rest p
    else if k = gs "name" then
      match v with
      | .str s => machineOptsLoop rest { p with name := s }
      | _ => none
    else if k = gs "package" then
      match v with
      | .str s => machineOptsLoop rest { p with pkg := s }
      | _ => none
    else if k = gs "image" then
      match v with
      | .str s => machineOptsLoop rest { p with image := s }
      | _ => none
    else if k = gs "networks" then
      match v with
      | .arr xs =>
        match asStrings xs with
        | some ns => machineOptsLoop rest { p with networks := some ns }
        | none => none
      | _ => none
    else if hasPrefixL k (gs "tag.") then
      match v with
      | .str s => machineOptsLoop rest { p with tags := mapInsert p.tags (k.drop 4) s }
      | _ => none
    else if hasPrefixL k (gs "metadata.") then
      match v with
      | .str s =>
        machineOptsLoop rest { p with metadata := mapInsert p.metadata (k.drop 9) s }
      | _ => none
    else machineOptsLoop rest p

/-! ## The six resource handlers -/

/-- The `fmt.Errorf("unknown request method %q for %s", ...)` fallthrough
text shared by every handler. -/
def unknownMethodMsg (method path : GoStr) : GoStr :=
  gs "unknown request method \"" ++ method ++ gs "\" for " ++ path

/-- `handleKeys` (service_http.go:153). -/
def handleKeys (c : Config) (st : Store) (r : Request) : HandlerOut :=
  let pfx := gs "/" ++ c.userAccount ++ gs "/keys/"
  let keyName := trimPrefixL r.path pfx
  if r.method = gs "GET" then
    if hasSuffixL r.path (gs "keys") then
      match st.listKeys with
      | .error e => ⟨[.listKeys], .err e⟩
      | .ok ks => ⟨[.listKeys], sendJSON 200 (.arr ((ks.getD []).map Key.toJson))⟩
    else
      match st.getKey keyName with
      | .error e => ⟨[.getKey keyName], .err e⟩
      | .ok k => ⟨[.getKey keyName], sendJSON 200 (k.getD {}).toJson⟩
  else if r.method = gs "POST" then
    if hasSuffixL r.path (gs "keys") then
      match readOpts r.body decodeKeyOpts ([], []) with
      | .error e => ⟨[], .err e⟩
      | .ok (name, key) =>
        match st.createKey name key with
        | .error e => ⟨[.createKey name key], .err e⟩
        | .ok k => ⟨[.createKey name key], sendJSON 201 (k.getD {}).toJson⟩
    else ⟨[], .err (.resp ErrNotAllowed)⟩
  else if r.method = gs "PUT" then ⟨[], .err (.resp ErrNotAllowed)⟩
  else if r.method = gs "DELETE" then
    if hasSuffixL r.path (gs "keys") then ⟨[], .err (.resp ErrNotAllowed)⟩
    else
      match st.deleteKey keyName with
      | some e => ⟨[.deleteKey keyName], .err e⟩
      | none => ⟨[.deleteKey keyName], sendJSON 204 .null⟩
  else ⟨[], .err (.generic (unknownMethodMsg r.method r.path))⟩

/-- `handleImages` (service_http.go:234). POST to the collection path is
the unimplemented CreateImageFromMachine and answers `ErrNotFound`; DELETE
is commented out in the source and always answers `ErrNotAllowed`. -/
def handleImages (c : Config) (st : Store) (r : Request) : HandlerOut :=
  let pfx := gs "/" ++ c.userAccount ++ gs "/images/"
  let imageID := trimPrefixL r.path pfx
  if r.method = gs "GET" then
    if hasSuffixL r.path (gs "images") then
      match processFilter r.rawQuery with
      | .error _ => ⟨[], .panics⟩
      | .ok f =>
        match st.listImages f with
        | .error e => ⟨[.listImages f], .err e⟩
        | .ok xs => ⟨[.listImages f], sendJSON 200 (.arr ((xs.getD []).map Image.toJson))⟩
    else
      match st.getImage imageID with
      | .error e => ⟨[.getImage imageID], .err e⟩
      | .ok i => ⟨[.getImage imageID], sendJSON 200 (i.getD {}).toJson⟩
  else if r.method = gs "POST" then
    if hasSuffixL r.path (gs "images") then ⟨[], .err (.resp ErrNotFound)⟩
    else ⟨[], .err (.resp ErrNotAllowed)⟩
  else if r.method = gs "PUT" then ⟨[], .err (.resp ErrNotAllowed)⟩
  else if r.method = gs "DELETE" then ⟨[], .err (.resp ErrNotAllowed)⟩
  else ⟨[], .err (.generic (unknownMethodMsg r.method r.path))⟩

/-- `handlePackages` (service_http.go:289). -/
def handlePackages (c : Config) (st : Store) (r : Request) : HandlerOut :=
  let pfx := gs "/" ++ c.userAccount ++ gs "/packages/"
  let pkgName := trimPrefixL r.path pfx
  if r.method = gs "GET" then
    if hasSuffixL r.path (gs "packages") then
      match processFilter r.rawQuery with
      | .error _ => ⟨[], .panics⟩
      | .ok f =>
        match st.listPackages f with
        | .error e => ⟨[.listPackages f], .err e⟩
        | .ok xs => ⟨[.listPackages f], sendJSON 200 (.arr ((xs.getD []).map Package.toJson))⟩
    else
      match st.getPackage pkgName with
      | .error e => ⟨[.getPackage pkgName], .err e⟩
      | .ok p => ⟨[.getPackage pkgName], sendJSON 200 (p.getD {}).toJson⟩
  else if r.method = gs "POST" then ⟨[], .err (.resp ErrNotAllowed)⟩
  else if r.method = gs "PUT" then ⟨[], .err (.resp ErrNotAllowed)⟩
  else if r.method = gs "DELETE" then ⟨[], .err (.resp ErrNotAllowed)⟩
  else ⟨[], .err (.generic (unknownMethodMsg r.method r.path))⟩

/-- The CreateMachine store call and response (service_http.go:436). -/
def createMachineStep (st : Store) (p : MachineParams) : HandlerOut :=
  match st.createMachine p.name p.pkg p.image p.networks p.metadata p.tags with
  | .error e =>
    ⟨[.createMachine p.name p.pkg p.image p.networks p.metadata p.tags], .err e⟩
  | .ok m =>
    ⟨[.createMachine p.name p.pkg p.image p.networks p.metadata p.tags],
     sendJSON 201 (m.getD {}).toJson⟩

/-- `handleMachines` (service_http.go:332). -/
def handleMachines (c : Config) (st : Store) (r : Request) : HandlerOut :=
  let pfx := gs "/" ++ c.userAccount ++ gs "/machines/"
  let machineID := trimPrefixL r.path pfx
  if r.method = gs "GET" then
    if hasSuffixL r.path (gs "machines") then
      match processFilter r.rawQuery with
      | .error _ => ⟨[], .panics⟩
      | .ok f =>
        match st.listMachines f with
        | .error e => ⟨[.listMachines f], .err e⟩
        | .ok ms => ⟨[.listMachines f], sendJSON 200 (.arr ((ms.getD []).map Machine.toJson))⟩
    else if hasSuffixL r.path (gs "fwrules") then
      let mid := trimSuffixL machineID (gs "/fwrules")
      match st.listMachineFirewallRules mid with
      | .error e => ⟨[.listMachineFirewallRules mid], .err e⟩
      | .ok fs =>
        ⟨[.listMachineFirewallRules mid],
         sendJSON 200 (.arr ((fs.getD []).map FirewallRule.toJson))⟩
    else
      match st.getMachine machineID with
      | .error e => ⟨[.getMachine machineID], .err e⟩
      | .ok m => ⟨[.getMachine machineID], sendJSON 200 (m.getD {}).toJson⟩
  else if r.method = gs "HEAD" then
    if hasSuffixL r.path (gs "machines") then
      match st.countMachines with
      | .error e => ⟨[.countMachines], .err e⟩
      | .ok n => ⟨[.countMachines], sendJSON 200 (.num n)⟩
    else ⟨[], .err (.resp ErrNotAllowed)⟩
  else if r.method = gs "POST" then
    if hasSuffixL r.path (gs "machines") then
      match r.body with
      | .readErr m => ⟨[], .err (.generic m)⟩
      | .malformed m => ⟨[], .err (.generic m)⟩
      | .empty => createMachineStep st {}
      | .json (.obj fs) =>
        match machineOptsLoop fs {} with
        | none => ⟨[], .panics⟩
        | some p => createMachineStep st p
      | .json _ =>
        ⟨[], .err (.generic (gs "json: cannot unmarshal value into map"))⟩
    else if queryGet r.rawQuery (gs "action") = gs "stop" then
      match st.stopMachine machineID with
      | some e => ⟨[.stopMachine machineID], .err e⟩
      | none => ⟨[.stopMachine machineID], sendJSON 202 .null⟩
    else if queryGet r.rawQuery (gs "action") = gs "start" then
      match st.startMachine machineID with
      | some e => ⟨[.startMachine machineID], .err e⟩
      | none => ⟨[.startMachine machineID], sendJSON 202 .null⟩
    else if queryGet r.rawQuery (gs "action") = gs "reboot" then
      match st.rebootMachine machineID with
      | some e => ⟨[.rebootMachine machineID], .err e⟩
      | none => ⟨[.rebootMachine machineID], sendJSON 202 .null⟩
    else if queryGet r.rawQuery (gs "action") = gs "resize" then
      match st.resizeMachine machineID (queryGet r.rawQuery (gs "package")) with
      | some e => ⟨[.resizeMachine machineID (queryGet r.rawQuery (gs "package"))], .err e⟩
      | none =>
        ⟨[.resizeMachine machineID (queryGet r.rawQuery (gs "package"))],
         sendJSON 202 .null⟩
    else if queryGet r.rawQuery (gs "action") = gs "rename" then
      match st.renameMachine machineID (queryGet r.rawQuery (gs "name")) with
      | some e => ⟨[.renameMachine machineID (queryGet r.rawQuery (gs "name"))], .err e⟩
      | none =>
        ⟨[.renameMachine machineID (queryGet r.rawQuery (gs "name"))],
         sendJSON 202 .null⟩
    else if queryGet r.rawQuery (gs "action") = gs "enable_firewall" then
      match st.enableFirewallMachine machineID with
      | some e => ⟨[.enableFirewallMachine machineID], .err e⟩
      | none => ⟨[.enableFirewallMachine machineID], sendJSON 202 .null⟩
    else if queryGet r.rawQuery (gs "action") = gs "disable_firewall" then
      match st.disableFirewallMachine machineID with
      | some e => ⟨[.disableFirewallMachine machineID], .err e⟩
      | none => ⟨[.disableFirewallMachine machineID], sendJSON 202 .null⟩
    else ⟨[], .err (.resp ErrNotAllowed)⟩
  else if r.method = gs "PUT" then ⟨[], .err (.resp ErrNotAllowed)⟩
  else if r.method = gs "DELETE" then
    if hasSuffixL r.path (gs "machines") then ⟨[], .err (.resp ErrNotAllowed)⟩
    else
      match st.deleteMachine machineID with
      | some e => ⟨[.deleteMachine machineID], .err e⟩
      | none => ⟨[.deleteMachine machineID], sendJSON 204 .null⟩
  else ⟨[], .err (.generic (unknownMethodMsg r.method r.path))⟩

/-- `handleFwRules` (service_http.go:518). -/
def handleFwRules (c : Config) (st : Store) (r : Request) : HandlerOut :=
  let pfx := gs "/" ++ c.userAccount ++ gs "/fwrules/"
  let fwRuleID := trimPrefixL r.path pfx
  if r.method = gs "GET" then
    if hasSuffixL r.path (gs "fwrules") then
      match st.listFirewallRules with
      | .error e => ⟨[.listFirewallRules], .err e⟩
      | .ok xs =>
        ⟨[.listFirewallRules], sendJSON 200 (.arr ((xs.getD []).map FirewallRule.toJson))⟩
    else
      match st.getFirewallRule fwRuleID with
      | .error e => ⟨[.getFirewallRule fwRuleID], .err e⟩
      | .ok f => ⟨[.getFirewallRule fwRuleID], sendJSON 200 (f.getD {}).toJson⟩
  else if r.method = gs "POST" then
    if hasSuffixL r.path (gs "fwrules") then
      match readOpts r.body decodeFwOpts ([], false) with
      | .error e => ⟨[], .err e⟩
      | .ok (rule, enabled) =>
        match st.createFirewallRule rule enabled with
        | .error e => ⟨[.createFirewallRule rule enabled], .err e⟩
        | .ok f => ⟨[.createFirewallRule rule enabled], sendJSON 201 (f.getD {}).toJson⟩
    else if hasSuffixL r.path (gs "enable") then
      let rid := trimSuffixL fwRuleID (gs "/enable")
      match st.enableFirewallRule rid with
      | .error e => ⟨[.enableFirewallRule rid], .err e⟩
      | .ok f => ⟨[.enableFirewallRule rid], sendJSON 200 (f.getD {}).toJson⟩
    else if hasSuffixL r.path (gs "disable") then
      let rid := trimSuffixL fwRuleID (gs "/disable")
      match st.disableFirewallRule rid with
      | .error e => ⟨[.disableFirewallRule rid], .err e⟩
      | .ok f => ⟨[.disableFirewallRule rid], sendJSON 200 (f.getD {}).toJson⟩
    else
      match readOpts r.body decodeFwOpts ([], false) with
      | .error e => ⟨[], .err e⟩
      | .ok (rule, enabled) =>
        match st.updateFirewallRule fwRuleID rule enabled with
        | .error e => ⟨[.updateFirewallRule fwRuleID rule enabled], .err e⟩
        | .ok f =>
          ⟨[.updateFirewallRule fwRuleID rule enabled], sendJSON 200 (f.getD {}).toJson⟩
  else if r.method = gs "PUT" then ⟨[], .err (.resp ErrNotAllowed)⟩
  else if r.method = gs "DELETE" then
    if hasSuffixL r.path (gs "fwrules") then ⟨[], .err (.resp ErrNotAllowed)⟩
    else
      match st.deleteFirewallRule fwRuleID with
      | some e => ⟨[.deleteFirewallRule fwRuleID], .err e⟩
      | none => ⟨[.deleteFirewallRule fwRuleID], sendJSON 204 .null⟩
  else ⟨[], .err (.generic (unknownMethodMsg r.method r.path))⟩

/-- `handleNetworks` (service_http.go:649). -/
def handleNetworks (c : Config) (st : Store) (r : Request) : HandlerOut :=
  let pfx := gs "/" ++ c.userAccount ++ gs "/networks/"
  let networkID := trimPrefixL r.path pfx
  if r.method = gs "GET" then
    if hasSuffixL r.path (gs "networks") then
      match st.listNetworks with
      | .error e => ⟨[.listNetworks], .err e⟩
      | .ok xs => ⟨[.listNetworks], sendJSON 200 (.arr ((xs.getD []).map Network.toJson))⟩
    else
      match st.getNetwork networkID with
      | .error e => ⟨[.getNetwork networkID], .err e⟩
      | .ok n => ⟨[.getNetwork networkID], sendJSON 200 (n.getD {}).toJson⟩
  else if r.method = gs "POST" then ⟨[], .err (.resp ErrNotAllowed)⟩
  else if r.method = gs "PUT" then ⟨[], .err (.resp ErrNotAllowed)⟩
  else if r.method = gs "DELETE" then ⟨[], .err (.resp ErrNotAllowed)⟩
  else ⟨[], .err (.generic (unknownMethodMsg r.method r.path))⟩

/-! ## Top-level dispatch and registration -/

/-- What `cloudapiHandler.ServeHTTP` ends up serving. -/
inductive Served where
  | written (code : Nat) (body : GoStr)
  | errResp (e : ErrorResponse)
  | panicked
deriving Repr

/-- The ad hoc 500 internal-error response (service_http.go:107), body
text exactly as in the source (including its typo). -/
def internalError (msg : GoStr) : ErrorResponse :=
  ⟨500,
   gs "\x7b\"internalServerError\":\x7b\"message\":\"Unkown Error\",code:500\x7d\x7d",
   gs "application/json", msg, []⟩

/-- `cloudapiHandler.ServeHTTP` (service_http.go:93): reject non-root
trailing-slash paths as not-found without invoking the method; otherwise
run the method and, on a returned error, serve it directly when it is an
`http.Handler` (an `*ErrorResponse`) or wrap it in the 500 envelope. The
boolean reports whether the handler method was invoked. -/
def dispatchServe (path : GoStr) (out : HandlerOut) : Served × Bool :=
  if hasSuffixL path (gs "/") = true ∧ path ≠ gs "/" then (.errResp ErrNotFound, false)
  else
    match out.res with
    | .ok c b => (.written c b, true)
    | .err (.resp e) => (.errResp e, true)
    | .err (.generic msg) => (.errResp (internalError msg), true)
    | .panics => (.panicked, true)

/-- The handlers a `CloudAPI` exposes, by name. -/
inductive HandlerTag where
  | notFound | badRequest | keys | images | packages | machines | fwrules | networks
deriving DecidableEq, Repr

/-- The literal route table of `SetupHTTP` (service_http.go:693), in source
order (Go map iteration order is arbitrary; the set of registrations is
order-independent). -/
def routeTable : List (GoStr × HandlerTag) :=
  [(gs "/", .notFound),
   (gs "/$user/", .badRequest),
   (gs "/$user/keys", .keys),
   (gs "/$user/images", .images),
   (gs "/$user/packages", .packages),
   (gs "/$user/machines", .machines),
   (gs "/$user/fwrules", .fwrules),
   (gs "/$user/networks", .networks)]

/-- One iteration of the `SetupHTTP` registration loop
(service_http.go:704): substitute the account into the pattern once, then
register the trailing-slash variant first when the path does not already
end in a slash, and the path itself always. -/
def registrations (u : GoStr) (e : GoStr × HandlerTag) : List (GoStr × HandlerTag) :=
  let p := replaceOnceL e.1 (gs "$user") u
  if hasSuffixL p (gs "/") then [(p, e.2)]
  else [(p ++ gs "/", e.2), (p, e.2)]

/-- `SetupHTTP` (service_http.go:692): all mux registrations performed. -/
def setupHTTP (u : GoStr) : List (GoStr × HandlerTag) :=
  (routeTable.map (registrations u)).flatten

/-! ## Lemmas about the string primitives -/

theorem hasPrefixL_nil (s : GoStr) : hasPrefixL s [] = true := by
  cases s <;> rfl

theorem hasPrefixL_append_self (p s : GoStr) : hasPrefixL (p ++ s) p = true := by
  induction p with
  | nil => exact hasPrefixL_nil s
  | cons c t ih => simp [hasPrefixL, ih]

theorem hasSuffixL_append_self (s p : GoStr) : hasSuffixL (s ++ p) p = true := by
  unfold hasSuffixL
  rw [List.reverse_append]
  exact hasPrefixL_append_self _ _

theorem hasPrefixL_append_left (a b p : GoStr) (h : p.length ≤ a.length) :
    hasPrefixL (a ++ b) p = hasPrefixL a p := by
  induction p generalizing a with
  | nil => rw [hasPrefixL_nil, hasPrefixL_nil]
  | cons d pt ih =>
    cases a with
    | nil => simp at h
    | cons c at' =>
      have h' : pt.length ≤ at'.length := by simpa using h
      simp only [List.cons_append, hasPrefixL, List.append_eq, ih at' h']

theorem hasSuffixL_append_left (y x p : GoStr) (h : p.length ≤ x.length) :
    hasSuffixL (y ++ x) p = hasSuffixL x p := by
  unfold hasSuffixL
  rw [List.reverse_append]
  exact hasPrefixL_append_left _ _ _ (by simpa using h)

theorem trimPrefixL_append (p s : GoStr) : trimPrefixL (p ++ s) p = s := by
  unfold trimPrefixL
  rw [hasPrefixL_append_self]
  simp

theorem splitOnCh_no_sep (ch : Char) (s : GoStr) (h : ch ∉ s) :
    splitOnCh ch s = [s] := by
  induction s with
  | nil => rfl
  | cons c rest ih =>
    have hc : ¬c = ch := fun e => h (e ▸ List.mem_cons_self c rest)
    have hr : ch ∉ rest := fun m => h (List.mem_cons_of_mem c m)
    simp [splitOnCh, hc, ih hr]

theorem splitOnCh_sep_append (ch : Char) (a b : GoStr) (h : ch ∉ a) :
    splitOnCh ch (a ++ ch :: b) = a :: splitOnCh ch b := by
  induction a with
  | nil => simp [splitOnCh]
  | cons c at' ih =>
    have hc : ¬c = ch := fun e => h (e ▸ List.mem_cons_self c at')
    have ha : ch ∉ at' := fun m => h (List.mem_cons_of_mem c m)
    rw [List.cons_append]
    simp only [splitOnCh, if_neg hc, ih ha]

theorem charIdx_eq_none (ch : Char) (s : GoStr) : charIdx ch s = none ↔ ch ∉ s := by
  induction s with
  | nil => simp [charIdx]
  | cons c rest ih =>
    by_cases hc : c = ch
    · subst hc; simp [charIdx]
    · have hne : ¬ch = c := fun e => hc e.symm
      simp [charIdx, hc, Option.map_eq_none', ih, hne]

theorem charIdx_append_sep (k v : GoStr) (h : '=' ∉ k) :
    charIdx '=' (k ++ '=' :: v) = some k.length := by
  induction k with
  | nil => simp [charIdx]
  | cons c kt ih =>
    have hc : ¬c = '=' := fun e => h (e ▸ List.mem_cons_self c kt)
    have hk : '=' ∉ kt := fun m => h (List.mem_cons_of_mem c m)
    simp [charIdx, hc, ih hk]

/-! ## Lemmas about `processFilter` -/

theorem procSegs_error_iff (segs : List GoStr) (acc : Filters) :
    procSegs segs acc = .error () ↔ ∃ seg ∈ segs, '=' ∉ seg := by
  induction segs generalizing acc with
  | nil => simp [procSegs]
  | cons seg rest ih =>
    cases hidx : charIdx '=' seg with
    | none =>
      have hn : '=' ∉ seg := (charIdx_eq_none '=' seg).mp hidx
      simp only [procSegs, hidx]
      constructor
      · intro _; exact ⟨seg, List.mem_cons_self _ _, hn⟩
      · intro _; trivial
    | some i =>
      have hmem : '=' ∈ seg := by
        by_contra hn
        rw [(charIdx_eq_none '=' seg).mpr hn] at hidx
        exact Option.noConfusion hidx
      simp only [procSegs, hidx, ih, List.mem_cons]
      constructor
      · rintro ⟨s, hs, hn⟩; exact ⟨s, Or.inr hs, hn⟩
      · rintro ⟨s, hs, hn⟩
        rcases hs with h | h
        · exact absurd hmem (h ▸ hn)
        · exact ⟨s, h, hn⟩

theorem procSegs_ok_of_all_sep (segs : List GoStr) (acc : Filters)
    (h : ∀ seg ∈ segs, '=' ∈ seg) : ∃ f, procSegs segs acc = .ok f := by
  cases hres : procSegs segs acc with
  | ok f => exact ⟨f, rfl⟩
  | error e =>
    cases e
    rcases (procSegs_error_iff segs acc).mp hres with ⟨s, hs, hn⟩
    exact absurd (h s hs) hn

/-! ## Claims about `processFilter` (C7, C9) -/

/-- C7: `processFilter` on the raw query `a=1&b=2` yields the mapping
`{a: "1", b: "2"}`; an absent (empty) raw query yields an absent (nil)
mapping, distinguishable from an empty one; in general a segment
`key=value` (key free of `=`, neither side containing `&`) contributes the
entry `(key, value)` — the key is the text before the first `=` and the
value the text after it — and a second such segment contributes a second
entry via Go map assignment; no URL-decoding takes place (a `%20` escape
is copied verbatim). -/
theorem processFilter_spec :
    processFilter (gs "a=1&b=2") = .ok (some [(gs "a", gs "1"), (gs "b", gs "2")])
    ∧ processFilter [] = .ok none
    ∧ (Option.none : Option Filters) ≠ some []
    ∧ (∀ k v : GoStr, '=' ∉ k → '&' ∉ k → '&' ∉ v →
        processFilter (k ++ '=' :: v) = .ok (some [(k, v)]))
    ∧ (∀ k₁ v₁ k₂ v₂ : GoStr, '=' ∉ k₁ → '&' ∉ k₁ → '&' ∉ v₁ →
        '=' ∉ k₂ → '&' ∉ k₂ → '&' ∉ v₂ →
        processFilter (k₁ ++ '=' :: v₁ ++ '&' :: (k₂ ++ '=' :: v₂)) =
          .ok (some (mapInsert [(k₁, v₁)] k₂ v₂)))
    ∧ processFilter (gs "a=%20b") = .ok (some [(gs "a", gs "%20b")]) := by
  refine ⟨by rfl, by rfl, by simp, ?_, ?_, by rfl⟩
  · intro k v hk hak hav
    have hne : k ++ '=' :: v ≠ [] := by simp
    have hsplit : splitOnCh '&' (k ++ '=' :: v) = [k ++ '=' :: v] := by
      refine splitOnCh_no_sep '&' _ (fun hm => ?_)
      rcases List.mem_append.mp hm with h | h
      · exact hak h
      · rcases List.mem_cons.mp h with h | h
        · exact absurd h (by decide)
        · exact hav h
    have hidx : charIdx '=' (k ++ '=' :: v) = some k.length :=
      charIdx_append_sep k v hk
    have htake : (k ++ '=' :: v).take k.length = k := List.take_left k _
    have hdrop : (k ++ '=' :: v).drop (k.length + 1) = v := by
      have : k ++ '=' :: v = (k ++ ['=']) ++ v := by simp
      rw [this, show k.length + 1 = (k ++ ['=']).length by simp]
      exact List.drop_left _ _
    unfold processFilter
    rw [if_neg hne, hsplit]
    simp only [procSegs, hidx, htake, hdrop]
    rfl
  · intro k₁ v₁ k₂ v₂ hk₁ hak₁ hav₁ hk₂ hak₂ hav₂
    have hne : k₁ ++ '=' :: v₁ ++ '&' :: (k₂ ++ '=' :: v₂) ≠ [] := by simp
    have hfirst : '&' ∉ k₁ ++ '=' :: v₁ := by
      intro hm
      rcases List.mem_append.mp hm with h | h
      · exact hak₁ h
      · rcases List.mem_cons.mp h with h | h
        · exact absurd h (by decide)
        · exact hav₁ h
    have hsecond : '&' ∉ k₂ ++ '=' :: v₂ := by
      intro hm
      rcases List.mem_append.mp hm with h | h
      · exact hak₂ h
      · rcases List.mem_cons.mp h with h | h
        · exact absurd h (by decide)
        · exact hav₂ h
    have hsplit : splitOnCh '&' ((k₁ ++ '=' :: v₁) ++ '&' :: (k₂ ++ '=' :: v₂)) =
        (k₁ ++ '=' :: v₁) :: [k₂ ++ '=' :: v₂] := by
      rw [splitOnCh_sep_append '&' _ _ hfirst, splitOnCh_no_sep '&' _ hsecond]
    have htake₁ : (k₁ ++ '=' :: v₁).take k₁.length = k₁ := List.take_left k₁ _
    have hdrop₁ : (k₁ ++ '=' :: v₁).drop (k₁.length + 1) = v₁ := by
      have : k₁ ++ '=' :: v₁ = (k₁ ++ ['=']) ++ v₁ := by simp
      rw [this, show k₁.length + 1 = (k₁ ++ ['=']).length by simp]
      exact List.drop_left _ _
    have htake₂ : (k₂ ++ '=' :: v₂).take k₂.length = k₂ := List.take_left k₂ _
    have hdrop₂ : (k₂ ++ '=' :: v₂).drop (k₂.length + 1) = v₂ := by
      have : k₂ ++ '=' :: v₂ = (k₂ ++ ['=']) ++ v₂ := by simp
      rw [this, show k₂.length + 1 = (k₂ ++ ['=']).length by simp]
      exact List.drop_left _ _
    unfold processFilter
    rw [if_neg (by simp)]
    rw [show k₁ ++ '=' :: v₁ ++ '&' :: (k₂ ++ '=' :: v₂) =
          (k₁ ++ '=' :: v₁) ++ '&' :: (k₂ ++ '=' :: v₂) by simp]
    rw [hsplit]
    simp only [procSegs, charIdx_append_sep k₁ v₁ hk₁, charIdx_append_sep k₂ v₂ hk₂,
      htake₁, hdrop₁, htake₂, hdrop₂]
    rfl

/-- C7 witness: the single-segment and two-segment parts at concrete
inputs. -/
theorem processFilter_spec_witness :
    processFilter (gs "x=7") = .ok (some [(gs "x", gs "7")])
    ∧ processFilter (gs "x=7&y=8") = .ok (some (mapInsert [(gs "x", gs "7")] (gs "y") (gs "8"))) := by
  constructor
  · have h := processFilter_spec.2.2.2.1 (gs "x") (gs "7")
      (by decide) (by decide) (by decide)
    simpa using h
  · have h := processFilter_spec.2.2.2.2.1 (gs "x") (gs "7") (gs "y") (gs "8")
      (by decide) (by decide) (by decide) (by decide) (by decide) (by decide)
    simpa using h

/-- C9: `processFilter` is partial — on a non-empty raw query it panics
(the `filter[:strings.Index(filter, "=")]` slice with index `-1`) exactly
when some `&`-separated segment contains no `=`; in particular `flag` and
`a=1&flag` panic, and under the precondition that every segment contains
an `=` it completes normally. -/
theorem processFilter_panics :
    (∀ q : GoStr, q ≠ [] →
      (processFilter q = .error () ↔ ∃ seg ∈ splitOnCh '&' q, '=' ∉ seg))
    ∧ processFilter (gs "flag") = .error ()
    ∧ processFilter (gs "a=1&flag") = .error ()
    ∧ (∀ q : GoStr, (∀ seg ∈ splitOnCh '&' q, '=' ∈ seg) →
        ∃ m, processFilter q = .ok m) := by
  refine ⟨?_, by rfl, by rfl, ?_⟩
  · intro q hq
    unfold processFilter
    rw [if_neg hq]
    constructor
    · intro h
      have : procSegs (splitOnCh '&' q) [] = .error () := by
        cases hres : procSegs (splitOnCh '&' q) [] with
        | ok f => rw [hres] at h; exact absurd h (by simp [Except.map])
        | error e => cases e; rfl
      exact (procSegs_error_iff _ _).mp this
    · intro h
      rw [(procSegs_error_iff (splitOnCh '&' q) []).mpr h]
      rfl
  · intro q h
    by_cases hq : q = []
    · exact ⟨none, by simp [processFilter, hq]⟩
    · rcases procSegs_ok_of_all_sep (splitOnCh '&' q) [] h with ⟨f, hf⟩
      refine ⟨some f, ?_⟩
      unfold processFilter
      rw [if_neg hq, hf]
      rfl

/-- C9 witness: the if-and-only-if characterization and the completion
part at concrete inputs. -/
theorem processFilter_panics_witness :
    (processFilter (gs "flag") = .error () ↔ ∃ seg ∈ splitOnCh '&' (gs "flag"), '=' ∉ seg)
    ∧ ∃ m, processFilter (gs "a=1") = .ok m := by
  constructor
  · exact processFilter_panics.1 (gs "flag") (by decide)
  · exact processFilter_panics.2.2.2 (gs "a=1")
      (by intro seg hseg; simp only [show splitOnCh '&' (gs "a=1") = [gs "a=1"] from rfl,
            List.mem_singleton] at hseg; rw [hseg]; decide)

/-! ## Claims about registration and dispatch (C1, C8) -/

theorem hasSuffixL_cons_append_false (u t : GoStr)
    (h : hasSuffixL t (gs "/") = false) (hlen : (gs "/").length ≤ t.length) :
    hasSuffixL ('/' :: (u ++ t)) (gs "/") = false := by
  rw [show '/' :: (u ++ t) = ('/' :: u) ++ t from rfl,
    hasSuffixL_append_left _ _ _ hlen, h]

theorem cons_append_ne_root (u t : GoStr) (h : t ≠ []) :
    ('/' :: (u ++ t)) ≠ gs "/" := by
  intro heq
  have h' : '/' :: (u ++ t) = ['/'] := heq
  injection h' with h1 h2
  rcases List.append_eq_nil.mp h2 with ⟨-, h4⟩
  exact h h4

/-- The fully evaluated registration list of `SetupHTTP`: the root and the
account root are registered once (they already end in `/`), every resource
collection path is registered twice — with the trailing slash first, then
without — under the same handler. -/
theorem setupHTTP_eq (u : GoStr) :
    setupHTTP u =
      [(gs "/", .notFound),
       ('/' :: (u ++ gs "/"), .badRequest),
       ('/' :: (u ++ gs "/keys") ++ gs "/", .keys),
       ('/' :: (u ++ gs "/keys"), .keys),
       ('/' :: (u ++ gs "/images") ++ gs "/", .images),
       ('/' :: (u ++ gs "/images"), .images),
       ('/' :: (u ++ gs "/packages") ++ gs "/", .packages),
       ('/' :: (u ++ gs "/packages"), .packages),
       ('/' :: (u ++ gs "/machines") ++ gs "/", .machines),
       ('/' :: (u ++ gs "/machines"), .machines),
       ('/' :: (u ++ gs "/fwrules") ++ gs "/", .fwrules),
       ('/' :: (u ++ gs "/fwrules"), .fwrules),
       ('/' :: (u ++ gs "/networks") ++ gs "/", .networks),
       ('/' :: (u ++ gs "/networks"), .networks)] := by
  have hroot : hasSuffixL (gs "/") (gs "/") = true := rfl
  have hacct : hasSuffixL ('/' :: (u ++ gs "/")) (gs "/") = true := by
    rw [show '/' :: (u ++ gs "/") = ('/' :: u) ++ gs "/" from rfl]
    exact hasSuffixL_append_self _ _
  have hk := hasSuffixL_cons_append_false u (gs "/keys") rfl (by decide)
  have hi := hasSuffixL_cons_append_false u (gs "/images") rfl (by decide)
  have hp := hasSuffixL_cons_append_false u (gs "/packages") rfl (by decide)
  have hm := hasSuffixL_cons_append_false u (gs "/machines") rfl (by decide)
  have hf := hasSuffixL_cons_append_false u (gs "/fwrules") rfl (by decide)
  have hn := hasSuffixL_cons_append_false u (gs "/networks") rfl (by decide)
  unfold setupHTTP routeTable
  simp only [List.map_cons, List.map_nil, List.flatten_cons, List.flatten_nil,
    registrations,
    show replaceOnceL (gs "/") (gs "$user") u = gs "/" from rfl,
    show replaceOnceL (gs "/$user/") (gs "$user") u = '/' :: (u ++ gs "/") from rfl,
    show replaceOnceL (gs "/$user/keys") (gs "$user") u = '/' :: (u ++ gs "/keys") from rfl,
    show replaceOnceL (gs "/$user/images") (gs "$user") u = '/' :: (u ++ gs "/images") from rfl,
    show replaceOnceL (gs "/$user/packages") (gs "$user") u = '/' :: (u ++ gs "/packages") from rfl,
    show replaceOnceL (gs "/$user/machines") (gs "$user") u = '/' :: (u ++ gs "/machines") from rfl,
    show replaceOnceL (gs "/$user/fwrules") (gs "$user") u = '/' :: (u ++ gs "/fwrules") from rfl,
    show replaceOnceL (gs "/$user/networks") (gs "$user") u = '/' :: (u ++ gs "/networks") from rfl,
    hroot, hacct, hk, hi, hp, hm, hf, hn]
  simp

/-- C1: registration and trailing-slash dispatch are asymmetric. Every
registered path that does not end in `/` is also registered with a
trailing slash under the same handler; the root `/` is registered exactly
once; and yet the resource-handler dispatch answers any request whose path
ends in `/` (other than the root itself) with the 404 not-found error
without invoking the handler method. -/
theorem setup_trailing_slash_asymmetry :
    (∀ (u p : GoStr) (h : HandlerTag), (p, h) ∈ setupHTTP u →
      hasSuffixL p (gs "/") = false → (p ++ gs "/", h) ∈ setupHTTP u)
    ∧ (∀ u : GoStr, (setupHTTP u).countP (fun e => decide (e.1 = gs "/")) = 1)
    ∧ (∀ (path : GoStr) (out : HandlerOut),
        hasSuffixL path (gs "/") = true → path ≠ gs "/" →
        dispatchServe path out = (.errResp ErrNotFound, false))
    ∧ ErrNotFound.Code = 404 := by
  refine ⟨?_, ?_, ?_, rfl⟩
  · intro u p h hmem hs
    unfold setupHTTP at hmem ⊢
    rcases List.mem_flatten.mp hmem with ⟨l, hl, hpl⟩
    rcases List.mem_map.mp hl with ⟨e, he, rfl⟩
    simp only [registrations] at hpl
    by_cases hqs : hasSuffixL (replaceOnceL e.1 (gs "$user") u) (gs "/") = true
    · rw [if_pos hqs] at hpl
      rcases List.mem_singleton.mp hpl with h'
      have hp1 : p = replaceOnceL e.1 (gs "$user") u := congrArg Prod.fst h'
      rw [hp1, hqs] at hs
      exact Bool.noConfusion hs
    · rw [if_neg hqs] at hpl
      rcases List.mem_cons.mp hpl with h' | h'
      · have hp1 : p = replaceOnceL e.1 (gs "$user") u ++ gs "/" :=
          congrArg Prod.fst h'
        rw [hp1, hasSuffixL_append_self] at hs
        exact Bool.noConfusion hs
      · rcases List.mem_singleton.mp h' with h''
        have hp1 : p = replaceOnceL e.1 (gs "$user") u := congrArg Prod.fst h''
        have hh : h = e.2 := congrArg Prod.snd h''
        refine List.mem_flatten.mpr ⟨registrations u e,
          List.mem_map.mpr ⟨e, he, rfl⟩, ?_⟩
        simp only [registrations]
        rw [if_neg hqs, hp1, hh]
        exact List.mem_cons_self _ _
  · intro u
    have hne : ∀ t : GoStr, t ≠ [] →
        decide (('/' :: (u ++ t)) = gs "/") = false :=
      fun t ht => decide_eq_false (cons_append_ne_root u t ht)
    rw [setupHTTP_eq]
    simp only [List.countP_cons, List.countP_nil, List.cons_append, List.append_assoc]
    rw [hne (gs "/") (by decide),
      hne (gs "/keys" ++ gs "/") (by decide), hne (gs "/keys") (by decide),
      hne (gs "/images" ++ gs "/") (by decide), hne (gs "/images") (by decide),
      hne (gs "/packages" ++ gs "/") (by decide), hne (gs "/packages") (by decide),
      hne (gs "/machines" ++ gs "/") (by decide), hne (gs "/machines") (by decide),
      hne (gs "/fwrules" ++ gs "/") (by decide), hne (gs "/fwrules") (by decide),
      hne (gs "/networks" ++ gs "/") (by decide), hne (gs "/networks") (by decide)]
    simp
  · intro path out h1 h2
    unfold dispatchServe
    rw [if_pos ⟨h1, h2⟩]

/-- C1 witness: the keys collection route of account `fake` is registered
both ways, and a GET on the trailing-slash variant is dispatched to 404
without the handler running. -/
theorem setup_trailing_slash_asymmetry_witness :
    (gs "/fake/keys" ++ gs "/", HandlerTag.keys) ∈ setupHTTP (gs "fake")
    ∧ dispatchServe (gs "/fake/keys/")
        (handleKeys ⟨gs "fake"⟩ {} ⟨gs "GET", gs "/fake/keys/", [], .empty⟩) =
      (.errResp ErrNotFound, false) := by
  constructor
  · exact setup_trailing_slash_asymmetry.1 (gs "fake") (gs "/fake/keys")
      HandlerTag.keys (by decide) (by decide)
  · exact setup_trailing_slash_asymmetry.2.2.1 (gs "/fake/keys/") _
      (by decide) (by decide)

/-- C8: an error returned by a handler method that is not itself an
`http.Handler` is wrapped by the top-level dispatch into a 500
internal-error response whose `errorText` equals the original error's
`Error()` text while the wire body is the fixed generic JSON message; an
`*ErrorResponse` returned by the method is served directly, with its own
status, body and headers. -/
theorem dispatch_error_wrapping (path msg : GoStr) (calls calls' : List StoreCall)
    (e : ErrorResponse)
    (hp : ¬(hasSuffixL path (gs "/") = true ∧ path ≠ gs "/")) :
    dispatchServe path ⟨calls, .err (.generic msg)⟩ =
      (.errResp (internalError msg), true)
    ∧ (internalError msg).errorText = msg
    ∧ (GoError.generic msg).text = msg
    ∧ (internalError msg).Code = 500
    ∧ (internalError msg).Body =
        gs "\x7b\"internalServerError\":\x7b\"message\":\"Unkown Error\",code:500\x7d\x7d"
    ∧ dispatchServe path ⟨calls', .err (.resp e)⟩ = (.errResp e, true)
    ∧ (ErrorResponse.render e).status = (if e.Code ≠ 0 then e.Code else 200)
    ∧ (ErrorResponse.render e).body = e.Body := by
  refine ⟨?_, rfl, rfl, rfl, rfl, ?_, rfl, rfl⟩
  · unfold dispatchServe
    rw [if_neg hp]
  · unfold dispatchServe
    rw [if_neg hp]

/-- C8 witness: wrapping a generic store error on a non-slash path. -/
theorem dispatch_error_wrapping_witness :
    dispatchServe (gs "/fake/keys") ⟨[], .err (.generic (gs "boom"))⟩ =
      (.errResp (internalError (gs "boom")), true)
    ∧ dispatchServe (gs "/fake/keys") ⟨[], .err (.resp ErrNotAllowed)⟩ =
      (.errResp ErrNotAllowed, true) := by
  have h := dispatch_error_wrapping (gs "/fake/keys") (gs "boom") [] []
    ErrNotAllowed (by decide)
  exact ⟨h.1, h.2.2.2.2.2.1⟩

/-! ## Claim C2: the machine action dispatcher -/

/-- C2 counterexample: a successful `action=stop` POST to a single machine
answers 202, but its body is the four bytes `null` (the JSON marshalling
of Go `nil`), not an empty body as claimed. -/
theorem machines_action_empty_body_cex :
    (handleMachines ⟨gs "fake"⟩ {}
        ⟨gs "POST", gs "/fake/machines/m1", gs "action=stop", .empty⟩).res =
      .ok 202 (gs "null")
    ∧ gs "null" ≠ ([] : GoStr) :=
  ⟨rfl, by decide⟩

/-- C2 (amended): for a POST to a single-machine path (one not ending in
`machines`), the handler inspects the `action` query parameter in the
fixed order stop, start, reboot, resize, rename, enable_firewall,
disable_firewall; each recognized action invokes exactly the corresponding
store operation (resize additionally passing the `package` query
parameter, rename the `name` query parameter); on store success it
responds 202 with body `null` (the JSON marshalling of Go `nil`, not an
empty body); a store error is returned unchanged; with no recognized
action the handler returns the 405 not-allowed error without any store
call. -/
theorem machines_action_dispatch (u path rq : GoStr) (st : Store) (b : Body)
    (mid : GoStr) (hcol : hasSuffixL path (gs "machines") = false)
    (hmid : mid = trimPrefixL path (gs "/" ++ u ++ gs "/machines/")) :
    (queryGet rq (gs "action") = gs "stop" →
      (st.stopMachine mid = none →
        handleMachines ⟨u⟩ st ⟨gs "POST", path, rq, b⟩ =
          ⟨[.stopMachine mid], .ok 202 (gs "null")⟩)
      ∧ ∀ e, st.stopMachine mid = some e →
        handleMachines ⟨u⟩ st ⟨gs "POST", path, rq, b⟩ = ⟨[.stopMachine mid], .err e⟩)
    ∧ (queryGet rq (gs "action") = gs "start" →
      (st.startMachine mid = none →
        handleMachines ⟨u⟩ st ⟨gs "POST", path, rq, b⟩ =
          ⟨[.startMachine mid], .ok 202 (gs "null")⟩)
      ∧ ∀ e, st.startMachine mid = some e →
        handleMachines ⟨u⟩ st ⟨gs "POST", path, rq, b⟩ = ⟨[.startMachine mid], .err e⟩)
    ∧ (queryGet rq (gs "action") = gs "reboot" →
      (st.rebootMachine mid = none →
        handleMachines ⟨u⟩ st ⟨gs "POST", path, rq, b⟩ =
          ⟨[.rebootMachine mid], .ok 202 (gs "null")⟩)
      ∧ ∀ e, st.rebootMachine mid = some e →
        handleMachines ⟨u⟩ st ⟨gs "POST", path, rq, b⟩ = ⟨[.rebootMachine mid], .err e⟩)
    ∧ (queryGet rq (gs "action") = gs "resize" →
      (st.resizeMachine mid (queryGet rq (gs "package")) = none →
        handleMachines ⟨u⟩ st ⟨gs "POST", path, rq, b⟩ =
          ⟨[.resizeMachine mid (queryGet rq (gs "package"))], .ok 202 (gs "null")⟩)
      ∧ ∀ e, st.resizeMachine mid (queryGet rq (gs "package")) = some e →
        handleMachines ⟨u⟩ st ⟨gs "POST", path, rq, b⟩ =
          ⟨[.resizeMachine mid (queryGet rq (gs "package"))], .err e⟩)
    ∧ (queryGet rq (gs "action") = gs "rename" →
      (st.renameMachine mid (queryGet rq (gs "name")) = none →
        handleMachines ⟨u⟩ st ⟨gs "POST", path, rq, b⟩ =
          ⟨[.renameMachine mid (queryGet rq (gs "name"))], .ok 202 (gs "null")⟩)
      ∧ ∀ e, st.renameMachine mid (queryGet rq (gs "name")) = some e →
        handleMachines ⟨u⟩ st ⟨gs "POST", path, rq, b⟩ =
          ⟨[.renameMachine mid (queryGet rq (gs "name"))], .err e⟩)
    ∧ (queryGet rq (gs "action") = gs "enable_firewall" →
      (st.enableFirewallMachine mid = none →
        handleMachines ⟨u⟩ st ⟨gs "POST", path, rq, b⟩ =
          ⟨[.enableFirewallMachine mid], .ok 202 (gs "null")⟩)
      ∧ ∀ e, st.enableFirewallMachine mid = some e →
        handleMachines ⟨u⟩ st ⟨gs "POST", path, rq, b⟩ =
          ⟨[.enableFirewallMachine mid], .err e⟩)
    ∧ (queryGet rq (gs "action") = gs "disable_firewall" →
      (st.disableFirewallMachine mid = none →
        handleMachines ⟨u⟩ st ⟨gs "POST", path, rq, b⟩ =
          ⟨[.disableFirewallMachine mid], .ok 202 (gs "null")⟩)
      ∧ ∀ e, st.disableFirewallMachine mid = some e →
        handleMachines ⟨u⟩ st ⟨gs "POST", path, rq, b⟩ =
          ⟨[.disableFirewallMachine mid], .err e⟩)
    ∧ (queryGet rq (gs "action") ∉
          [gs "stop", gs "start", gs "reboot", gs "resize", gs "rename",
           gs "enable_firewall", gs "disable_firewall"] →
        handleMachines ⟨u⟩ st ⟨gs "POST", path, rq, b⟩ =
          ⟨[], .err (.resp ErrNotAllowed)⟩
        ∧ ErrNotAllowed.Code = 405) := by
  subst hmid
  refine ⟨?_, ?_, ?_, ?_, ?_, ?_, ?_, ?_⟩
  · intro hact
    constructor
    · intro hst
      unfold handleMachines
      simp only [hcol, hact, hst]
      rfl
    · intro e hst
      unfold handleMachines
      simp only [hcol, hact, hst]
      rfl
  · intro hact
    constructor
    · intro hst
      unfold handleMachines
      simp only [hcol, hact, hst]
      rfl
    · intro e hst
      unfold handleMachines
      simp only [hcol, hact, hst]
      rfl
  · intro hact
    constructor
    · intro hst
      unfold handleMachines
      simp only [hcol, hact, hst]
      rfl
    · intro e hst
      unfold handleMachines
      simp only [hcol, hact, hst]
      rfl
  · intro hact
    constructor
    · intro hst
      unfold handleMachines
      simp only [hcol, hact, hst]
      rfl
    · intro e hst
      unfold handleMachines
      simp only [hcol, hact, hst]
      rfl
  · intro hact
    constructor
    · intro hst
      unfold handleMachines
      simp only [hcol, hact, hst]
      rfl
    · intro e hst
      unfold handleMachines
      simp only [hcol, hact, hst]
      rfl
  · intro hact
    constructor
    · intro hst
      unfold handleMachines
      simp only [hcol, hact, hst]
      rfl
    · intro e hst
      unfold handleMachines
      simp only [hcol, hact, hst]
      rfl
  · intro hact
    constructor
    · intro hst
      unfold handleMachines
      simp only [hcol, hact, hst]
      rfl
    · intro e hst
      unfold handleMachines
      simp only [hcol, hact, hst]
      rfl
  · intro hact
    simp only [List.mem_cons, List.mem_singleton, not_or] at hact
    obtain ⟨h1, h2, h3, h4, h5, h6, h7, -⟩ := hact
    refine ⟨?_, rfl⟩
    unfold handleMachines
    simp only [hcol, Bool.false_eq_true, if_false,
      if_neg h1, if_neg h2, if_neg h3, if_neg h4, if_neg h5, if_neg h6, if_neg h7]
    rfl

/-- C2 witness: a resize action at concrete inputs. -/
theorem machines_action_dispatch_witness :
    handleMachines ⟨gs "fake"⟩ {}
        ⟨gs "POST", gs "/fake/machines/m1", gs "action=resize&package=g4", .empty⟩ =
      ⟨[.resizeMachine (gs "m1") (gs "g4")], .ok 202 (gs "null")⟩
    ∧ handleMachines ⟨gs "fake"⟩ {}
        ⟨gs "POST", gs "/fake/machines/m1", gs "action=wat", .empty⟩ =
      ⟨[], .err (.resp ErrNotAllowed)⟩ := by
  constructor
  · have h := (machines_action_dispatch (gs "fake") (gs "/fake/machines/m1")
      (gs "action=resize&package=g4") {} .empty (gs "m1") (by decide) (by decide)).2.2.2.1
      (by decide) |>.1 (by rfl)
    exact h
  · exact ((machines_action_dispatch (gs "fake") (gs "/fake/machines/m1")
      (gs "action=wat") {} .empty (gs "m1") (by decide) (by decide)).2.2.2.2.2.2.2
      (by decide)).1

/-! ## Claim C3: absent store results are never rendered as JSON null -/

/-- C3: for every resource family, GET on the collection path with a
nil/absent list result responds 200 with the empty JSON array `[]`, and
GET on a single-resource path with an absent result responds 200 with the
zero-value resource representation — a JSON object, never `null`, and
never a 404. (The machines handler additionally serves the nested
`/fwrules` sub-collection the same way.) -/
theorem get_absent_never_null :
    (∀ (u path rq : GoStr) (st : Store) (b : Body),
      hasSuffixL path (gs "keys") = true → st.listKeys = .ok none →
      handleKeys ⟨u⟩ st ⟨gs "GET", path, rq, b⟩ = ⟨[.listKeys], .ok 200 (gs "[]")⟩)
    ∧ (∀ (u path rq : GoStr) (st : Store) (b : Body) (kn : GoStr),
      hasSuffixL path (gs "keys") = false →
      kn = trimPrefixL path (gs "/" ++ u ++ gs "/keys/") →
      st.getKey kn = .ok none →
      handleKeys ⟨u⟩ st ⟨gs "GET", path, rq, b⟩ =
        ⟨[.getKey kn], .ok 200 ((Key.toJson {}).render)⟩
      ∧ (Key.toJson {}).render ≠ gs "null")
    ∧ (∀ (u path rq : GoStr) (st : Store) (b : Body) (f : Option Filters),
      hasSuffixL path (gs "images") = true → processFilter rq = .ok f →
      st.listImages f = .ok none →
      handleImages ⟨u⟩ st ⟨gs "GET", path, rq, b⟩ =
        ⟨[.listImages f], .ok 200 (gs "[]")⟩)
    ∧ (∀ (u path rq : GoStr) (st : Store) (b : Body) (iid : GoStr),
      hasSuffixL path (gs "images") = false →
      iid = trimPrefixL path (gs "/" ++ u ++ gs "/images/") →
      st.getImage iid = .ok none →
      handleImages ⟨u⟩ st ⟨gs "GET", path, rq, b⟩ =
        ⟨[.getImage iid], .ok 200 ((Image.toJson {}).render)⟩
      ∧ (Image.toJson {}).render ≠ gs "null")
    ∧ (∀ (u path rq : GoStr) (st : Store) (b : Body) (f : Option Filters),
      hasSuffixL path (gs "packages") = true → processFilter rq = .ok f →
      st.listPackages f = .ok none →
      handlePackages ⟨u⟩ st ⟨gs "GET", path, rq, b⟩ =
        ⟨[.listPackages f], .ok 200 (gs "[]")⟩)
    ∧ (∀ (u path rq : GoStr) (st : Store) (b : Body) (pn : GoStr),
      hasSuffixL path (gs "packages") = false →
      pn = trimPrefixL path (gs "/" ++ u ++ gs "/packages/") →
      st.getPackage pn = .ok none →
      handlePackages ⟨u⟩ st ⟨gs "GET", path, rq, b⟩ =
        ⟨[.getPackage pn], .ok 200 ((Package.toJson {}).render)⟩
      ∧ (Package.toJson {}).render ≠ gs "null")
    ∧ (∀ (u path rq : GoStr) (st : Store) (b : Body) (f : Option Filters),
      hasSuffixL path (gs "machines") = true → processFilter rq = .ok f →
      st.listMachines f = .ok none →
      handleMachines ⟨u⟩ st ⟨gs "GET", path, rq, b⟩ =
        ⟨[.listMachines f], .ok 200 (gs "[]")⟩)
    ∧ (∀ (u path rq : GoStr) (st : Store) (b : Body) (mid : GoStr),
      hasSuffixL path (gs "machines") = false →
      hasSuffixL path (gs "fwrules") = true →
      mid = trimSuffixL (trimPrefixL path (gs "/" ++ u ++ gs "/machines/")) (gs "/fwrules") →
      st.listMachineFirewallRules mid = .ok none →
      handleMachines ⟨u⟩ st ⟨gs "GET", path, rq, b⟩ =
        ⟨[.listMachineFirewallRules mid], .ok 200 (gs "[]")⟩)
    ∧ (∀ (u path rq : GoStr) (st : Store) (b : Body) (mid : GoStr),
      hasSuffixL path (gs "machines") = false →
      hasSuffixL path (gs "fwrules") = false →
      mid = trimPrefixL path (gs "/" ++ u ++ gs "/machines/") →
      st.getMachine mid = .ok none →
      handleMachines ⟨u⟩ st ⟨gs "GET", path, rq, b⟩ =
        ⟨[.getMachine mid], .ok 200 ((Machine.toJson {}).render)⟩
      ∧ (Machine.toJson {}).render ≠ gs "null")
    ∧ (∀ (u path rq : GoStr) (st : Store) (b : Body),
      hasSuffixL path (gs "fwrules") = true → st.listFirewallRules = .ok none →
      handleFwRules ⟨u⟩ st ⟨gs "GET", path, rq, b⟩ =
        ⟨[.listFirewallRules], .ok 200 (gs "[]")⟩)
    ∧ (∀ (u path rq : GoStr) (st : Store) (b : Body) (rid : GoStr),
      hasSuffixL path (gs "fwrules") = false →
      rid = trimPrefixL path (gs "/" ++ u ++ gs "/fwrules/") →
      st.getFirewallRule rid = .ok none →
      handleFwRules ⟨u⟩ st ⟨gs "GET", path, rq, b⟩ =
        ⟨[.getFirewallRule rid], .ok 200 ((FirewallRule.toJson {}).render)⟩
      ∧ (FirewallRule.toJson {}).render ≠ gs "null")
    ∧ (∀ (u path rq : GoStr) (st : Store) (b : Body),
      hasSuffixL path (gs "networks") = true → st.listNetworks = .ok none →
      handleNetworks ⟨u⟩ st ⟨gs "GET", path, rq, b⟩ =
        ⟨[.listNetworks], .ok 200 (gs "[]")⟩)
    ∧ (∀ (u path rq : GoStr) (st : Store) (b : Body) (nid : GoStr),
      hasSuffixL path (gs "networks") = false →
      nid = trimPrefixL path (gs "/" ++ u ++ gs "/networks/") →
      st.getNetwork nid = .ok none →
      handleNetworks ⟨u⟩ st ⟨gs "GET", path, rq, b⟩ =
        ⟨[.getNetwork nid], .ok 200 ((Network.toJson {}).render)⟩
      ∧ (Network.toJson {}).render ≠ gs "null") := by
  refine ⟨?_, ?_, ?_, ?_, ?_, ?_, ?_, ?_, ?_, ?_, ?_, ?_, ?_⟩
  · intro u path rq st b hs hst
    unfold handleKeys
    simp only [hs, hst]
    rfl
  · intro u path rq st b kn hs hkn hst
    subst hkn
    refine ⟨?_, by decide⟩
    unfold handleKeys
    simp only [hs, hst]
    rfl
  · intro u path rq st b f hs hf hst
    unfold handleImages
    simp only [hs, hf, hst]
    rfl
  · intro u path rq st b iid hs hid hst
    subst hid
    refine ⟨?_, by decide⟩
    unfold handleImages
    simp only [hs, hst]
    rfl
  · intro u path rq st b f hs hf hst
    unfold handlePackages
    simp only [hs, hf, hst]
    rfl
  · intro u path rq st b pn hs hpn hst
    subst hpn
    refine ⟨?_, by decide⟩
    unfold handlePackages
    simp only [hs, hst]
    rfl
  · intro u path rq st b f hs hf hst
    unfold handleMachines
    simp only [hs, hf, hst]
    rfl
  · intro u path rq st b mid hs1 hs2 hmid hst
    subst hmid
    unfold handleMachines
    simp only [hs1, hs2, hst]
    rfl
  · intro u path rq st b mid hs1 hs2 hmid hst
    subst hmid
    refine ⟨?_, by decide⟩
    unfold handleMachines
    simp only [hs1, hs2, hst]
    rfl
  · intro u path rq st b hs hst
    unfold handleFwRules
    simp only [hs, hst]
    rfl
  · intro u path rq st b rid hs hrid hst
    subst hrid
    refine ⟨?_, by decide⟩
    unfold handleFwRules
    simp only [hs, hst]
    rfl
  · intro u path rq st b hs hst
    unfold handleNetworks
    simp only [hs, hst]
    rfl
  · intro u path rq st b nid hs hnid hst
    subst hnid
    refine ⟨?_, by decide⟩
    unfold handleNetworks
    simp only [hs, hst]
    rfl

/-- C3 witness: the keys collection and a single machine at concrete
inputs (default store: every result absent). -/
theorem get_absent_never_null_witness :
    handleKeys ⟨gs "fake"⟩ {} ⟨gs "GET", gs "/fake/keys", [], .empty⟩ =
      ⟨[.listKeys], .ok 200 (gs "[]")⟩
    ∧ handleMachines ⟨gs "fake"⟩ {} ⟨gs "GET", gs "/fake/machines/m1", [], .empty⟩ =
      ⟨[.getMachine (gs "m1")], .ok 200 ((Machine.toJson {}).render)⟩
    ∧ handleMachines ⟨gs "fake"⟩ {} ⟨gs "GET", gs "/fake/machines/m1/fwrules", [], .empty⟩ =
      ⟨[.listMachineFirewallRules (gs "m1")], .ok 200 (gs "[]")⟩ := by
  refine ⟨?_, ?_, ?_⟩
  · exact get_absent_never_null.1 (gs "fake") (gs "/fake/keys") [] {} .empty
      (by decide) rfl
  · exact (get_absent_never_null.2.2.2.2.2.2.2.2.1 (gs "fake") (gs "/fake/machines/m1")
      [] {} .empty (gs "m1") (by decide) (by decide) (by decide) rfl).1
  · exact get_absent_never_null.2.2.2.2.2.2.2.1 (gs "fake")
      (gs "/fake/machines/m1/fwrules") [] {} .empty (gs "m1")
      (by decide) (by decide) (by decide) rfl

/-! ## Claim C4: machine-create field extraction -/

theorem asStrings_map_str (l : List GoStr) : asStrings (l.map .str) = some l := by
  induction l with
  | nil => rfl
  | cons s t ih => simp [asStrings, ih]

/-- The extraction loop on a representative create body: `name`, `package`,
`image` and `networks` land in the corresponding arguments, a
`tag.`-prefixed key lands in the tag map and a `metadata.`-prefixed key in
the metadata map with the prefix stripped, a nil-valued key is skipped
whatever its name, and any other key is ignored. -/
theorem machineOptsLoop_spec (nm pk im tv mv : GoStr) (nets : List GoStr)
    (ts ms kIgn kNil : GoStr) (vIgn : Json)
    (h1 : kIgn ≠ gs "name") (h2 : kIgn ≠ gs "package") (h3 : kIgn ≠ gs "image")
    (h4 : kIgn ≠ gs "networks")
    (h5 : hasPrefixL kIgn (gs "tag.") = false)
    (h6 : hasPrefixL kIgn (gs "metadata.") = false)
    (h7 : vIgn.isNull = false) :
    machineOptsLoop
      [(gs "name", .str nm), (gs "package", .str pk), (gs "image", .str im),
       (gs "networks", .arr (nets.map .str)),
       (gs "tag." ++ ts, .str tv), (gs "metadata." ++ ms, .str mv),
       (kIgn, vIgn), (kNil, .null)] {} =
      some ⟨nm, pk, im, some nets, [(ms, mv)], [(ts, tv)]⟩ := by
  have stepName : ∀ rest p, machineOptsLoop ((gs "name", .str nm) :: rest) p =
      machineOptsLoop rest { p with name := nm } := fun rest p => rfl
  have stepPkg : ∀ rest p, machineOptsLoop ((gs "package", .str pk) :: rest) p =
      machineOptsLoop rest { p with pkg := pk } := fun rest p => rfl
  have stepImg : ∀ rest p, machineOptsLoop ((gs "image", .str im) :: rest) p =
      machineOptsLoop rest { p with image := im } := fun rest p => rfl
  have stepNets : ∀ rest p,
      machineOptsLoop ((gs "networks", .arr (nets.map .str)) :: rest) p =
      machineOptsLoop rest { p with networks := some nets } := by
    intro rest p
    simp only [machineOptsLoop, asStrings_map_str]
    rfl
  have stepTag : ∀ rest p, machineOptsLoop ((gs "tag." ++ ts, .str tv) :: rest) p =
      machineOptsLoop rest { p with tags := mapInsert p.tags ts tv } := by
    intro rest p
    simp only [machineOptsLoop, hasPrefixL_append_self]
    rfl
  have stepMeta : ∀ rest p,
      machineOptsLoop ((gs "metadata." ++ ms, .str mv) :: rest) p =
      machineOptsLoop rest { p with metadata := mapInsert p.metadata ms mv } := by
    intro rest p
    simp only [machineOptsLoop, hasPrefixL_append_self]
    rfl
  have stepIgn : ∀ rest p, machineOptsLoop ((kIgn, vIgn) :: rest) p =
      machineOptsLoop rest p := by
    intro rest p
    simp only [machineOptsLoop, h1, h2, h3, h4, h5, h6, h7]
    rfl
  have stepNil : ∀ rest p, machineOptsLoop ((kNil, Json.null) :: rest) p =
      machineOptsLoop rest p := fun rest p => rfl
  rw [stepName, stepPkg, stepImg, stepNets, stepTag, stepMeta, stepIgn, stepNil]
  rfl

/-- C4: machine creation decodes the body as an untyped JSON object and
extracts fields key by key — `name`, `package`, `image` as strings,
`networks` as a string array, `tag.`-prefixed keys into the tags map and
`metadata.`-prefixed keys into the metadata map with the prefix stripped,
nil-valued keys skipped, all other keys ignored — and passes the extracted
arguments to the store's create operation, returning the created machine
with 201. -/
theorem machines_create_extraction (u path rq : GoStr) (st : Store)
    (nm pk im tv mv : GoStr) (nets : List GoStr) (ts ms kIgn kNil : GoStr)
    (vIgn : Json) (m : Machine)
    (hcol : hasSuffixL path (gs "machines") = true)
    (h1 : kIgn ≠ gs "name") (h2 : kIgn ≠ gs "package") (h3 : kIgn ≠ gs "image")
    (h4 : kIgn ≠ gs "networks")
    (h5 : hasPrefixL kIgn (gs "tag.") = false)
    (h6 : hasPrefixL kIgn (gs "metadata.") = false)
    (h7 : vIgn.isNull = false)
    (hst : st.createMachine nm pk im (some nets) [(ms, mv)] [(ts, tv)] =
      .ok (some m)) :
    handleMachines ⟨u⟩ st ⟨gs "POST", path, rq,
        .json (.obj
          [(gs "name", .str nm), (gs "package", .str pk), (gs "image", .str im),
           (gs "networks", .arr (nets.map .str)),
           (gs "tag." ++ ts, .str tv), (gs "metadata." ++ ms, .str mv),
           (kIgn, vIgn), (kNil, .null)])⟩ =
      ⟨[.createMachine nm pk im (some nets) [(ms, mv)] [(ts, tv)]],
       .ok 201 (m.toJson.render)⟩ := by
  unfold handleMachines
  simp only [hcol,
    machineOptsLoop_spec nm pk im tv mv nets ts ms kIgn kNil vIgn h1 h2 h3 h4 h5 h6 h7]
  unfold createMachineStep
  simp only [hst]
  rfl

/-- C4 witness: the spec's example body (`tag.env`, `metadata.role`, two
networks) plus an ignored key and a nil-valued key, against a store whose
create returns a machine. -/
theorem machines_create_extraction_witness :
    handleMachines ⟨gs "fake"⟩
        { createMachine := fun _ _ _ _ _ _ =>
            .ok (some ⟨gs "m-new", gs "g4", gs "img1"⟩) }
        ⟨gs "POST", gs "/fake/machines", [],
          .json (.obj
            [(gs "name", .str (gs "vm1")), (gs "package", .str (gs "g4")),
             (gs "image", .str (gs "img1")),
             (gs "networks", .arr [.str (gs "net1"), .str (gs "net2")]),
             (gs "tag." ++ gs "env", .str (gs "prod")),
             (gs "metadata." ++ gs "role", .str (gs "db")),
             (gs "other", .str (gs "x")), (gs "skipped", .null)])⟩ =
      ⟨[.createMachine (gs "vm1") (gs "g4") (gs "img1")
          (some [gs "net1", gs "net2"]) [(gs "role", gs "db")] [(gs "env", gs "prod")]],
       .ok 201 ((Machine.toJson ⟨gs "m-new", gs "g4", gs "img1"⟩).render)⟩ := by
  have h := machines_create_extraction (gs "fake") (gs "/fake/machines") []
    { createMachine := fun _ _ _ _ _ _ => .ok (some ⟨gs "m-new", gs "g4", gs "img1"⟩) }
    (gs "vm1") (gs "g4") (gs "img1") (gs "prod") (gs "db")
    [gs "net1", gs "net2"] (gs "env") (gs "role") (gs "other") (gs "skipped")
    (.str (gs "x")) ⟨gs "m-new", gs "g4", gs "img1"⟩
    (by decide) (by decide) (by decide) (by decide) (by decide)
    (by decide) (by decide) (by decide) rfl
  exact h

/-! ## Claim C10: the extraction loop is partial -/

/-- Whether a decoded interface value satisfies the `v.(string)` type
assertion. -/
def Json.isStr : Json → Bool
  | .str _ => true
  | _ => false

/-- `.str` payload, zero value otherwise (only used under `isStr`). -/
def Json.strD : Json → GoStr
  | .str s => s
  | _ => []

/-- Whether one key/value pair survives the extraction loop's type
assertions: a nil value always does; `name`/`package`/`image` and
prefixed tag/metadata keys require a string; `networks` requires an array
of strings; unrecognized keys are never asserted. -/
def entryOK : GoStr × Json → Bool
  | (k, v) =>
    if v.isNull then true
    else if k = gs "name" then v.isStr
    else if k = gs "package" then v.isStr
    else if k = gs "image" then v.isStr
    else if k = gs "networks" then
      match v with
      | .arr xs => (asStrings xs).isSome
      | _ => false
    else if hasPrefixL k (gs "tag.") then v.isStr
    else if hasPrefixL k (gs "metadata.") then v.isStr
    else true

/-- The state update one surviving key/value pair performs. -/
def applyEntry : GoStr × Json → MachineParams → MachineParams
  | (k, v), p =>
    if v.isNull then p
    else if k = gs "name" then { p with name := v.strD }
    else if k = gs "package" then { p with pkg := v.strD }
    else if k = gs "image" then { p with image := v.strD }
    else if k = gs "networks" then
      { p with networks := some ((match v with | .arr xs => asStrings xs | _ => none).getD []) }
    else if hasPrefixL k (gs "tag.") then
      { p with tags := mapInsert p.tags (k.drop 4) v.strD }
    else if hasPrefixL k (gs "metadata.") then
      { p with metadata := mapInsert p.metadata (k.drop 9) v.strD }
    else p

theorem machineOptsLoop_cons_eq (k : GoStr) (v : Json) (rest : List (GoStr × Json))
    (p : MachineParams) :
    machineOptsLoop ((k, v) :: rest) p =
      if entryOK (k, v) then machineOptsLoop rest (applyEntry (k, v) p) else none := by
  by_cases hnull : v.isNull = true
  · simp [machineOptsLoop, entryOK, applyEntry, hnull]
  · replace hnull : v.isNull = false := by revert hnull; cases v.isNull <;> simp
    by_cases hname : k = gs "name"
    · subst hname
      cases v <;>
        simp_all [machineOptsLoop, entryOK, applyEntry, Json.isNull, Json.isStr, Json.strD]
    · by_cases hpkg : k = gs "package"
      · subst hpkg
        cases v <;>
          simp_all [machineOptsLoop, entryOK, applyEntry, Json.isNull, Json.isStr, Json.strD]
      · by_cases himg : k = gs "image"
        · subst himg
          cases v <;>
            simp_all [machineOptsLoop, entryOK, applyEntry, Json.isNull, Json.isStr,
              Json.strD]
        · by_cases hnets : k = gs "networks"
          · subst hnets
            cases v <;>
              simp_all [machineOptsLoop, entryOK, applyEntry, Json.isNull, Json.isStr,
                Json.strD]
            · cases hxs : asStrings (by assumption : List Json) <;> simp_all
          · by_cases hpt : hasPrefixL k (gs "tag.") = true
            · cases v <;>
                simp_all [machineOptsLoop, entryOK, applyEntry, Json.isNull, Json.isStr,
                  Json.strD]
            · by_cases hpm : hasPrefixL k (gs "metadata.") = true
              · cases v <;>
                  simp_all [machineOptsLoop, entryOK, applyEntry, Json.isNull, Json.isStr,
                    Json.strD]
              · cases v <;>
                  simp_all [machineOptsLoop, entryOK, applyEntry, Json.isNull, Json.isStr,
                    Json.strD]

theorem machineOptsLoop_none_iff (entries : List (GoStr × Json)) (p : MachineParams) :
    machineOptsLoop entries p = none ↔ ∃ e ∈ entries, entryOK e = false := by
  induction entries generalizing p with
  | nil => simp [machineOptsLoop]
  | cons e rest ih =>
    obtain ⟨k, v⟩ := e
    rw [machineOptsLoop_cons_eq]
    by_cases h : entryOK (k, v) = true
    · simp [h, ih]
    · replace h : entryOK (k, v) = false := by revert h; cases entryOK (k, v) <;> simp
      simp [h]

/-- C10: the machine-create extraction is partial over well-formed JSON:
binding `name`, `package` or `image` to a non-null non-string, `networks`
to anything that is not an array of strings, or a `tag.`/`metadata.`
prefixed key to a non-null non-string makes the unchecked type assertions
panic (no 500 response, no store call), and in general the extraction
completes normally exactly when every recognized key carries the expected
type or a nil value. -/
theorem machines_create_panics :
    handleMachines ⟨gs "fake"⟩ {} ⟨gs "POST", gs "/fake/machines", [],
        .json (.obj [(gs "name", .num 5)])⟩ = ⟨[], .panics⟩
    ∧ handleMachines ⟨gs "fake"⟩ {} ⟨gs "POST", gs "/fake/machines", [],
        .json (.obj [(gs "package", .bool true)])⟩ = ⟨[], .panics⟩
    ∧ handleMachines ⟨gs "fake"⟩ {} ⟨gs "POST", gs "/fake/machines", [],
        .json (.obj [(gs "image", .arr [])])⟩ = ⟨[], .panics⟩
    ∧ handleMachines ⟨gs "fake"⟩ {} ⟨gs "POST", gs "/fake/machines", [],
        .json (.obj [(gs "networks", .str (gs "net1"))])⟩ = ⟨[], .panics⟩
    ∧ handleMachines ⟨gs "fake"⟩ {} ⟨gs "POST", gs "/fake/machines", [],
        .json (.obj [(gs "networks", .arr [.num 1])])⟩ = ⟨[], .panics⟩
    ∧ handleMachines ⟨gs "fake"⟩ {} ⟨gs "POST", gs "/fake/machines", [],
        .json (.obj [(gs "tag.env", .num 1)])⟩ = ⟨[], .panics⟩
    ∧ handleMachines ⟨gs "fake"⟩ {} ⟨gs "POST", gs "/fake/machines", [],
        .json (.obj [(gs "metadata.role", .bool false)])⟩ = ⟨[], .panics⟩
    ∧ (∀ (u path rq : GoStr) (st : Store) (entries : List (GoStr × Json)),
        hasSuffixL path (gs "machines") = true →
        (∃ e ∈ entries, entryOK e = false) →
        handleMachines ⟨u⟩ st ⟨gs "POST", path, rq, .json (.obj entries)⟩ =
          ⟨[], .panics⟩)
    ∧ (∀ (entries : List (GoStr × Json)) (p : MachineParams),
        (machineOptsLoop entries p).isSome = true ↔ ∀ e ∈ entries, entryOK e = true) := by
  refine ⟨rfl, rfl, rfl, rfl, rfl, rfl, rfl, ?_, ?_⟩
  · intro u path rq st entries hcol hex
    have hnone : machineOptsLoop entries {} = none :=
      (machineOptsLoop_none_iff entries {}).mpr hex
    unfold handleMachines
    simp only [hcol, hnone]
    rfl
  · intro entries p
    constructor
    · intro h e he
      by_contra hb
      replace hb : entryOK e = false := by revert hb; cases entryOK e <;> simp
      have : machineOptsLoop entries p = none :=
        (machineOptsLoop_none_iff _ _).mpr ⟨e, he, hb⟩
      rw [this] at h
      simp at h
    · intro h
      cases hres : machineOptsLoop entries p with
      | some _ => rfl
      | none =>
        rcases (machineOptsLoop_none_iff _ _).mp hres with ⟨e, he, hb⟩
        rw [h e he] at hb
        exact Bool.noConfusion hb

/-- C10 witness: a `networks` array holding a number panics the handler
before any store call. -/
theorem machines_create_panics_witness :
    handleMachines ⟨gs "fake"⟩ {} ⟨gs "POST", gs "/fake/machines", [],
        .json (.obj [(gs "networks", .arr [.num 1])])⟩ = ⟨[], .panics⟩
    ∧ (machineOptsLoop [(gs "name", .str (gs "vm1"))] {}).isSome = true := by
  constructor
  · exact machines_create_panics.2.2.2.2.2.2.2.1 (gs "fake") (gs "/fake/machines")
      [] {} [(gs "networks", .arr [.num 1])] (by decide)
      ⟨(gs "networks", .arr [.num 1]), List.mem_singleton.mpr rfl, rfl⟩
  · exact (machines_create_panics.2.2.2.2.2.2.2.2 [(gs "name", .str (gs "vm1"))]
      {}).mpr (by intro e he; rw [List.mem_singleton.mp he]; rfl)

/-! ## Claim C5: POST to the collection path -/

/-- C5 counterexample: POST to the packages collection path does not
create anything and does not answer 201 — it is rejected with the 405
not-allowed error (and POST to the images collection answers the 404
not-found error). -/
theorem create_every_family_cex :
    handlePackages ⟨gs "fake"⟩ {} ⟨gs "POST", gs "/fake/packages", [], .empty⟩ =
      ⟨[], .err (.resp ErrNotAllowed)⟩
    ∧ ErrNotAllowed.Code = 405
    ∧ handleImages ⟨gs "fake"⟩ {} ⟨gs "POST", gs "/fake/images", [], .empty⟩ =
      ⟨[], .err (.resp ErrNotFound)⟩
    ∧ ErrNotFound.Code = 404 :=
  ⟨rfl, rfl, rfl, rfl⟩

/-- C5 (amended): POST to the collection path decodes the body as the
family-specific options structure (empty body meaning all defaults) and
responds 201 with the created resource for the keys, machines and firewall
rule families only; the images family answers the 404 not-found error
(unimplemented create-from-machine), and the packages and networks
families answer the 405 not-allowed error. -/
theorem create_by_family (u path rq : GoStr) (st : Store) (b : Body) :
    (∀ (k : Key), hasSuffixL path (gs "keys") = true →
      st.createKey [] [] = .ok (some k) →
      handleKeys ⟨u⟩ st ⟨gs "POST", path, rq, .empty⟩ =
        ⟨[.createKey [] []], .ok 201 (k.toJson.render)⟩)
    ∧ (∀ (k : Key) (n ky : GoStr), hasSuffixL path (gs "keys") = true →
      st.createKey n ky = .ok (some k) →
      handleKeys ⟨u⟩ st ⟨gs "POST", path, rq,
          .json (.obj [(gs "name", .str n), (gs "key", .str ky)])⟩ =
        ⟨[.createKey n ky], .ok 201 (k.toJson.render)⟩)
    ∧ (∀ (m : Machine), hasSuffixL path (gs "machines") = true →
      st.createMachine [] [] [] none [] [] = .ok (some m) →
      handleMachines ⟨u⟩ st ⟨gs "POST", path, rq, .empty⟩ =
        ⟨[.createMachine [] [] [] none [] []], .ok 201 (m.toJson.render)⟩)
    ∧ (∀ (f : FirewallRule) (ru : GoStr) (en : Bool),
      hasSuffixL path (gs "fwrules") = true →
      st.createFirewallRule ru en = .ok (some f) →
      handleFwRules ⟨u⟩ st ⟨gs "POST", path, rq,
          .json (.obj [(gs "rule", .str ru), (gs "enabled", .bool en)])⟩ =
        ⟨[.createFirewallRule ru en], .ok 201 (f.toJson.render)⟩)
    ∧ (hasSuffixL path (gs "images") = true →
      handleImages ⟨u⟩ st ⟨gs "POST", path, rq, b⟩ = ⟨[], .err (.resp ErrNotFound)⟩
      ∧ ErrNotFound.Code = 404)
    ∧ (handlePackages ⟨u⟩ st ⟨gs "POST", path, rq, b⟩ = ⟨[], .err (.resp ErrNotAllowed)⟩
      ∧ ErrNotAllowed.Code = 405)
    ∧ (handleNetworks ⟨u⟩ st ⟨gs "POST", path, rq, b⟩ = ⟨[], .err (.resp ErrNotAllowed)⟩
      ∧ ErrNotAllowed.Code = 405) := by
  refine ⟨?_, ?_, ?_, ?_, ?_, ?_, ?_⟩
  · intro k hcol hst
    have hdec : readOpts Body.empty decodeKeyOpts (([] : GoStr), ([] : GoStr)) =
        .ok (([] : GoStr), ([] : GoStr)) := rfl
    unfold handleKeys
    simp only [hcol, hdec, hst]
    rfl
  · intro k n ky hcol hst
    have hdec : readOpts (Body.json (.obj [(gs "name", .str n), (gs "key", .str ky)]))
        decodeKeyOpts ([], []) = .ok (n, ky) := rfl
    unfold handleKeys
    simp only [hcol, hdec, hst]
    rfl
  · intro m hcol hst
    unfold handleMachines
    simp only [hcol]
    unfold createMachineStep
    simp only [hst]
    rfl
  · intro f ru en hcol hst
    have hdec : readOpts (Body.json (.obj [(gs "rule", .str ru), (gs "enabled", .bool en)]))
        decodeFwOpts ([], false) = .ok (ru, en) := rfl
    unfold handleFwRules
    simp only [hcol, hdec, hst]
    rfl
  · intro hcol
    refine ⟨?_, rfl⟩
    unfold handleImages
    simp only [hcol]
    rfl
  · exact ⟨rfl, rfl⟩
  · exact ⟨rfl, rfl⟩

/-- C5 witness: a key created with a name/key body, and the packages
rejection, at concrete inputs. -/
theorem create_by_family_witness :
    handleKeys ⟨gs "fake"⟩ { createKey := fun n k => .ok (some ⟨n, k⟩) }
        ⟨gs "POST", gs "/fake/keys", [],
          .json (.obj [(gs "name", .str (gs "k1")),
                        (gs "key", .str (gs "ssh-rsa AAA"))])⟩ =
      ⟨[.createKey (gs "k1") (gs "ssh-rsa AAA")],
       .ok 201 ((Key.toJson ⟨gs "k1", gs "ssh-rsa AAA"⟩).render)⟩
    ∧ handlePackages ⟨gs "fake"⟩ {} ⟨gs "POST", gs "/fake/packages", [], .empty⟩ =
      ⟨[], .err (.resp ErrNotAllowed)⟩ := by
  constructor
  · exact (create_by_family (gs "fake") (gs "/fake/keys") []
      { createKey := fun n k => .ok (some ⟨n, k⟩) } .empty).2.1
      ⟨gs "k1", gs "ssh-rsa AAA"⟩ (gs "k1") (gs "ssh-rsa AAA") (by decide) rfl
  · exact ((create_by_family (gs "fake") (gs "/fake/packages") [] {} .empty).2.2.2.2.2.1).1

/-! ## Claim C6: DELETE dispatch -/

/-- C6 counterexample: DELETE on a single network path does not delete and
does not answer 204 — it is rejected with the 405 not-allowed error (the
images and packages families behave the same way). -/
theorem delete_every_family_cex :
    handleNetworks ⟨gs "fake"⟩ {} ⟨gs "DELETE", gs "/fake/networks/n1", [], .empty⟩ =
      ⟨[], .err (.resp ErrNotAllowed)⟩
    ∧ ErrNotAllowed.Code = 405
    ∧ handleImages ⟨gs "fake"⟩ {} ⟨gs "DELETE", gs "/fake/images/i1", [], .empty⟩ =
      ⟨[], .err (.resp ErrNotAllowed)⟩ :=
  ⟨rfl, rfl, rfl⟩

/-- C6 (amended): DELETE to a single-resource path invokes the store's
delete and responds 204 — with body `null`, the JSON marshalling of Go
`nil`, not an empty body — for the keys, machines and firewall-rule
families, and DELETE to those collection paths is rejected with 405; for
the images, packages and networks families every DELETE is rejected with
405 (images' delete branch is commented out in the source). -/
theorem delete_by_family (u path rq : GoStr) (st : Store) (b : Body) :
    (∀ kn : GoStr, hasSuffixL path (gs "keys") = false →
      kn = trimPrefixL path (gs "/" ++ u ++ gs "/keys/") →
      st.deleteKey kn = none →
      handleKeys ⟨u⟩ st ⟨gs "DELETE", path, rq, b⟩ =
        ⟨[.deleteKey kn], .ok 204 (gs "null")⟩)
    ∧ (hasSuffixL path (gs "keys") = true →
      handleKeys ⟨u⟩ st ⟨gs "DELETE", path, rq, b⟩ = ⟨[], .err (.resp ErrNotAllowed)⟩)
    ∧ (∀ mid : GoStr, hasSuffixL path (gs "machines") = false →
      mid = trimPrefixL path (gs "/" ++ u ++ gs "/machines/") →
      st.deleteMachine mid = none →
      handleMachines ⟨u⟩ st ⟨gs "DELETE", path, rq, b⟩ =
        ⟨[.deleteMachine mid], .ok 204 (gs "null")⟩)
    ∧ (hasSuffixL path (gs "machines") = true →
      handleMachines ⟨u⟩ st ⟨gs "DELETE", path, rq, b⟩ = ⟨[], .err (.resp ErrNotAllowed)⟩)
    ∧ (∀ rid : GoStr, hasSuffixL path (gs "fwrules") = false →
      rid = trimPrefixL path (gs "/" ++ u ++ gs "/fwrules/") →
      st.deleteFirewallRule rid = none →
      handleFwRules ⟨u⟩ st ⟨gs "DELETE", path, rq, b⟩ =
        ⟨[.deleteFirewallRule rid], .ok 204 (gs "null")⟩)
    ∧ (hasSuffixL path (gs "fwrules") = true →
      handleFwRules ⟨u⟩ st ⟨gs "DELETE", path, rq, b⟩ = ⟨[], .err (.resp ErrNotAllowed)⟩)
    ∧ (handleImages ⟨u⟩ st ⟨gs "DELETE", path, rq, b⟩ = ⟨[], .err (.resp ErrNotAllowed)⟩)
    ∧ (handlePackages ⟨u⟩ st ⟨gs "DELETE", path, rq, b⟩ = ⟨[], .err (.resp ErrNotAllowed)⟩)
    ∧ (handleNetworks ⟨u⟩ st ⟨gs "DELETE", path, rq, b⟩ = ⟨[], .err (.resp ErrNotAllowed)⟩)
    ∧ ErrNotAllowed.Code = 405
    ∧ gs "null" ≠ ([] : GoStr) := by
  refine ⟨?_, ?_, ?_, ?_, ?_, ?_, rfl, rfl, rfl, rfl, by decide⟩
  · intro kn hs hkn hst
    subst hkn
    unfold handleKeys
    simp only [hs, hst]
    rfl
  · intro hs
    unfold handleKeys
    simp only [hs]
    rfl
  · intro mid hs hmid hst
    subst hmid
    unfold handleMachines
    simp only [hs, hst]
    rfl
  · intro hs
    unfold handleMachines
    simp only [hs]
    rfl
  · intro rid hs hrid hst
    subst hrid
    unfold handleFwRules
    simp only [hs, hst]
    rfl
  · intro hs
    unfold handleFwRules
    simp only [hs]
    rfl

/-- C6 witness: deleting a key, and the collection rejection, at concrete
inputs. -/
theorem delete_by_family_witness :
    handleKeys ⟨gs "fake"⟩ {} ⟨gs "DELETE", gs "/fake/keys/k1", [], .empty⟩ =
      ⟨[.deleteKey (gs "k1")], .ok 204 (gs "null")⟩
    ∧ handleKeys ⟨gs "fake"⟩ {} ⟨gs "DELETE", gs "/fake/keys", [], .empty⟩ =
      ⟨[], .err (.resp ErrNotAllowed)⟩ := by
  constructor
  · exact (delete_by_family (gs "fake") (gs "/fake/keys/k1") [] {} .empty).1
      (gs "k1") (by decide) (by decide) rfl
  · exact (delete_by_family (gs "fake") (gs "/fake/keys") [] {} .empty).2.1 (by decide)
